import Mathlib

/-!
Verification of the NFT-platform smart contracts (NFT.sol, NFTMultiEdition.sol,
Marketplace.sol) against their natural-language specification.

The contracts are shallowly embedded: contract storage becomes a Lean structure,
each external function becomes a Lean function `State → args → Except SolError
(State × result)` with the caller (`msg.sender`) and the paid value (`msg.value`)
passed explicitly.  Solidity 0.8 uses checked (reverting, non-wrapping)
arithmetic on `uint256`, so on every non-reverting execution its arithmetic
agrees with `Nat` arithmetic; quantities are therefore modelled as `Nat`, with
`/` the flooring division that `uint256` division performs.  A revert is an
`Except.error`: no partial state escapes a failed call, matching the EVM's
all-or-nothing transaction semantics.  Addresses are modelled as `Nat`, with
`0` playing the role of `address(0)`.

External collaborators of the Marketplace (the token contract being traded and
the ETH recipients of a payout) are modelled by a `TokenEnv` record of the
observations the Marketplace makes through external calls; it is universally
quantified in the theorems, so a malicious or misconfigured token contract
(e.g. one reporting an inflated royalty) is covered.
-/

namespace NFTPlatform

/-- Ethereum addresses, with `0` standing for `address(0)`. -/
abbrev Addr := Nat

/-- Revert reasons of the embedded contracts.  Each constructor corresponds to
one `require` message or one OpenZeppelin custom error reachable from the
functions modelled here. -/
inductive SolError where
  /-- missing role / `onlyOwner` failure / "Only creator or admin can set
  royalty" / "Not authorized" -/
  | unauthorized
  /-- "Creator cannot be zero address" -/
  | invalidCreator
  /-- "URI cannot be empty" -/
  | invalidURI
  /-- "Amount must be greater than 0" -/
  | invalidAmount
  /-- "Exceeds max supply" / "Amount exceeds max supply" -/
  | supplyExceeded
  /-- "Token type does not exist" / "Token does not exist" / nonexistent token -/
  | notFound
  /-- "Royalty cannot exceed 10%" -/
  | invalidRate
  /-- OpenZeppelin `ERC2981InvalidTokenRoyalty` (fraction above denominator) -/
  | invalidRoyalty
  /-- OpenZeppelin `ERC2981InvalidTokenRoyaltyReceiver` (null receiver) -/
  | invalidRoyaltyReceiver
  /-- ERC721/ERC1155 mint to the null address -/
  | invalidReceiver
  /-- ERC721 mint of an id that already exists -/
  | invalidSender
  /-- missing transfer approval on burn -/
  | insufficientApproval
  /-- "Not token owner" -/
  | notOwner
  /-- "Marketplace not approved" -/
  | notApproved
  /-- "Price must be greater than 0" -/
  | invalidPrice
  /-- "Insufficient balance" -/
  | insufficientBalance
  /-- "Listing not active" -/
  | listingNotActive
  /-- "Cannot buy own listing" -/
  | selfPurchase
  /-- "Incorrect payment amount" -/
  | wrongPayment
  /-- OpenZeppelin `EnforcedPause` (`whenNotPaused` while paused) -/
  | enforcedPause
  /-- OpenZeppelin `ExpectedPause` (`unpause` while not paused) -/
  | expectedPause
  /-- "Fee cannot exceed 10%" -/
  | feeTooHigh
  /-- "Invalid recipient" -/
  | invalidRecipient
  /-- the NFT `safeTransferFrom` inside `buy` reverted -/
  | transferFailed
  /-- "ETH transfer failed" -/
  | ethTransferFailed
  deriving DecidableEq, Repr

/-- Pointwise update of a `Nat`-indexed map, modelling a Solidity
`mapping` store. -/
def setF {α : Type} (f : Nat → α) (i : Nat) (v : α) : Nat → α :=
  fun j => if j = i then v else f j

/-- Pointwise update of a doubly indexed map (ERC1155 balances). -/
def setF2 {α : Type} (f : Nat → Nat → α) (i j : Nat) (v : α) : Nat → Nat → α :=
  fun i' j' => if i' = i ∧ j' = j then v else f i' j'

/-- `true` iff the embedded call did not revert. -/
def exceptIsOk {ε α : Type} : Except ε α → Bool
  | .ok _ => true
  | .error _ => false

@[simp] theorem setF_same {α : Type} (f : Nat → α) (i : Nat) (v : α) :
    setF f i v i = v := by simp [setF]

@[simp] theorem setF_other {α : Type} (f : Nat → α) (i j : Nat) (v : α)
    (h : j ≠ i) : setF f i v j = f j := by simp [setF, h]

@[simp] theorem setF_setF {α : Type} (f : Nat → α) (i : Nat) (v w : α) :
    setF (setF f i v) i w = setF f i w := by
  funext j
  by_cases hj : j = i <;> simp [setF, hj]

/-- OpenZeppelin `ERC2981.royaltyInfo`: the per-token entry if its receiver is
set, else the contract-wide default entry; the amount is
`salePrice * fraction / 10000`. -/
def erc2981RoyaltyInfo (tokenRoyalty : Nat → Addr × Nat)
    (defaultInfo : Addr × Nat) (tokenId salePrice : Nat) : Addr × Nat :=
  let r := if (tokenRoyalty tokenId).1 = 0 then defaultInfo else tokenRoyalty tokenId
  (r.1, salePrice * r.2 / 10000)

/-- The validity checks of OpenZeppelin `ERC2981._setTokenRoyalty`: the
fraction may not exceed the denominator (10000) and the receiver may not be
the null address. -/
def erc2981SetChecks (receiver : Addr) (bps : Nat) : Except SolError Unit :=
  if 10000 < bps then .error .invalidRoyalty
  else if receiver = 0 then .error .invalidRoyaltyReceiver
  else .ok ()

/-! ## NFT.sol — the single-edition (ERC-721) ledger -/

namespace NFT

/-- Storage of the `NFT` contract (plus the inherited ERC721 / ERC2981 /
AccessControl storage the modelled functions touch). -/
structure State where
  /-- holders of `MINTER_ROLE` -/
  minters : Addr → Bool
  /-- holders of `DEFAULT_ADMIN_ROLE` -/
  admins : Addr → Bool
  /-- `_nextTokenId` -/
  nextTokenId : Nat
  /-- ERC721 `_owners`; `0` means the token does not exist -/
  owners : Nat → Addr
  /-- ERC721URIStorage `_tokenURIs` -/
  tokenURIs : Nat → String
  /-- `_creators` -/
  creators : Nat → Addr
  /-- `defaultRoyaltyBps` -/
  defaultRoyaltyBps : Nat
  /-- ERC2981 `_tokenRoyaltyInfo` as (receiver, fraction) -/
  tokenRoyalty : Nat → Addr × Nat
  /-- ERC2981 `_defaultRoyaltyInfo` (never written by this contract) -/
  defaultRoyaltyInfo : Addr × Nat
  /-- ERC721 `_operatorApprovals` -/
  approvedForAll : Addr → Addr → Bool
  /-- ERC721 `_tokenApprovals` -/
  tokenApprovals : Nat → Addr

/-- `NFT.mint(toAddr, uri)`: minter-only; assigns the next id, sets
owner = creator = `toAddr`, records the default royalty for `toAddr`. -/
def mint (st : State) (caller toAddr : Addr) (uri : String) :
    Except SolError (State × Nat) :=
  if ¬ st.minters caller then .error .unauthorized
  else
    let tokenId := st.nextTokenId
    if toAddr = 0 then .error .invalidReceiver
    else if st.owners tokenId ≠ 0 then .error .invalidSender
    else
      match erc2981SetChecks toAddr st.defaultRoyaltyBps with
      | .error e => .error e
      | .ok _ =>
        .ok ({ st with
                nextTokenId := tokenId + 1
                owners := setF st.owners tokenId toAddr
                tokenURIs := setF st.tokenURIs tokenId uri
                creators := setF st.creators tokenId toAddr
                tokenRoyalty := setF st.tokenRoyalty tokenId (toAddr, st.defaultRoyaltyBps) },
              tokenId)

/-- `NFT.mintFor(toAddr, creator, uri)`: like `mint` but with a distinct creator,
who becomes the royalty receiver; rejects the null creator. -/
def mintFor (st : State) (caller toAddr creator : Addr) (uri : String) :
    Except SolError (State × Nat) :=
  if ¬ st.minters caller then .error .unauthorized
  else if creator = 0 then .error .invalidCreator
  else
    let tokenId := st.nextTokenId
    if toAddr = 0 then .error .invalidReceiver
    else if st.owners tokenId ≠ 0 then .error .invalidSender
    else
      match erc2981SetChecks creator st.defaultRoyaltyBps with
      | .error e => .error e
      | .ok _ =>
        .ok ({ st with
                nextTokenId := tokenId + 1
                owners := setF st.owners tokenId toAddr
                tokenURIs := setF st.tokenURIs tokenId uri
                creators := setF st.creators tokenId creator
                tokenRoyalty := setF st.tokenRoyalty tokenId (creator, st.defaultRoyaltyBps) },
              tokenId)

/-- `ERC721Burnable.burn(tokenId)`: the caller must be the owner or approved;
clears ownership and the per-token approval, touching nothing else. -/
def burn (st : State) (caller : Addr) (tokenId : Nat) :
    Except SolError State :=
  let owner := st.owners tokenId
  if owner = 0 then .error .notFound
  else if ¬ (caller = owner ∨ st.approvedForAll owner caller ∨
             st.tokenApprovals tokenId = caller) then .error .insufficientApproval
  else
    .ok { st with
            owners := setF st.owners tokenId 0
            tokenApprovals := setF st.tokenApprovals tokenId 0 }

/-- `NFT.setTokenRoyalty(tokenId, receiver, royaltyBps)`: token must exist,
caller must be the token's creator or an admin, rate capped at 1000 bps. -/
def setTokenRoyalty (st : State) (caller : Addr) (tokenId : Nat)
    (receiver : Addr) (royaltyBps : Nat) : Except SolError State :=
  if st.owners tokenId = 0 then .error .notFound
  else if ¬ (st.creators tokenId = caller ∨ st.admins caller) then .error .unauthorized
  else if 1000 < royaltyBps then .error .invalidRate
  else
    match erc2981SetChecks receiver royaltyBps with
    | .error e => .error e
    | .ok _ => .ok { st with tokenRoyalty := setF st.tokenRoyalty tokenId (receiver, royaltyBps) }

/-- `NFT.setDefaultRoyalty(newRoyaltyBps)`: admin-only, capped at 1000 bps. -/
def setDefaultRoyalty (st : State) (caller : Addr) (newRoyaltyBps : Nat) :
    Except SolError State :=
  if ¬ st.admins caller then .error .unauthorized
  else if 1000 < newRoyaltyBps then .error .invalidRate
  else .ok { st with defaultRoyaltyBps := newRoyaltyBps }

/-- `NFT.totalSupply()`: returns `_nextTokenId`. -/
def totalSupply (st : State) : Nat := st.nextTokenId

/-- `NFT.exists(tokenId)`: the token has a nonzero owner. -/
def existsToken (st : State) (tokenId : Nat) : Bool :=
  decide (st.owners tokenId ≠ 0)

/-- `ERC2981.royaltyInfo` as exposed by this contract. -/
def royaltyInfo (st : State) (tokenId salePrice : Nat) : Addr × Nat :=
  erc2981RoyaltyInfo st.tokenRoyalty st.defaultRoyaltyInfo tokenId salePrice

/-- The externally callable state-changing operations of the `NFT` contract
that are modelled here, used to state trace invariants. -/
inductive Op where
  | opMint (caller toAddr : Addr) (uri : String)
  | opMintFor (caller toAddr creator : Addr) (uri : String)
  | opBurn (caller : Addr) (tokenId : Nat)
  | opSetTokenRoyalty (caller : Addr) (tokenId : Nat) (receiver : Addr) (bps : Nat)
  | opSetDefaultRoyalty (caller : Addr) (bps : Nat)

/-- Apply one operation with revert semantics: a failed call leaves the
state unchanged. -/
def Op.apply (st : State) : Op → State
  | .opMint caller toAddr uri =>
      match mint st caller toAddr uri with
      | .ok (st', _) => st'
      | .error _ => st
  | .opMintFor caller toAddr creator uri =>
      match mintFor st caller toAddr creator uri with
      | .ok (st', _) => st'
      | .error _ => st
  | .opBurn caller tokenId =>
      match burn st caller tokenId with
      | .ok st' => st'
      | .error _ => st
  | .opSetTokenRoyalty caller tokenId receiver bps =>
      match setTokenRoyalty st caller tokenId receiver bps with
      | .ok st' => st'
      | .error _ => st
  | .opSetDefaultRoyalty caller bps =>
      match setDefaultRoyalty st caller bps with
      | .ok st' => st'
      | .error _ => st

/-- `1` iff the operation is a `mint`/`mintFor` call that succeeds from the
given state. -/
def mintDelta (st : State) : Op → Nat
  | .opMint caller toAddr uri =>
      match mint st caller toAddr uri with
      | .ok _ => 1
      | .error _ => 0
  | .opMintFor caller toAddr creator uri =>
      match mintFor st caller toAddr creator uri with
      | .ok _ => 1
      | .error _ => 0
  | _ => 0

/-- Number of successful mint operations along a trace. -/
def traceMintCount (st : State) : List Op → Nat
  | [] => 0
  | op :: rest => mintDelta st op + traceMintCount (Op.apply st op) rest

/-- Success shape of `NFT.mint`: the new token sits at the old counter and
the counter advances by one. -/
theorem mint_ok_shape {st : State} {caller toAddr : Addr} {uri : String}
    {st' : State} {tid : Nat} (h : mint st caller toAddr uri = .ok (st', tid)) :
    tid = st.nextTokenId ∧ st.minters caller = true ∧ toAddr ≠ 0 ∧
    st' = { st with
            nextTokenId := st.nextTokenId + 1
            owners := setF st.owners st.nextTokenId toAddr
            tokenURIs := setF st.tokenURIs st.nextTokenId uri
            creators := setF st.creators st.nextTokenId toAddr
            tokenRoyalty := setF st.tokenRoyalty st.nextTokenId
              (toAddr, st.defaultRoyaltyBps) } := by
  simp only [mint] at h
  split at h
  · simp at h
  · rename_i hminter
    split at h
    · simp at h
    · rename_i hto
      split at h
      · simp at h
      · split at h
        · simp at h
        · simp only [Except.ok.injEq, Prod.mk.injEq] at h
          exact ⟨h.2.symm, not_not.mp hminter, hto, h.1.symm⟩

/-- Success shape of `NFT.mintFor`. -/
theorem mintFor_ok_shape {st : State} {caller toAddr creator : Addr} {uri : String}
    {st' : State} {tid : Nat} (h : mintFor st caller toAddr creator uri = .ok (st', tid)) :
    tid = st.nextTokenId ∧ st.minters caller = true ∧ creator ≠ 0 ∧ toAddr ≠ 0 ∧
    st' = { st with
            nextTokenId := st.nextTokenId + 1
            owners := setF st.owners st.nextTokenId toAddr
            tokenURIs := setF st.tokenURIs st.nextTokenId uri
            creators := setF st.creators st.nextTokenId creator
            tokenRoyalty := setF st.tokenRoyalty st.nextTokenId
              (creator, st.defaultRoyaltyBps) } := by
  simp only [mintFor] at h
  split at h
  · simp at h
  · rename_i hminter
    split at h
    · simp at h
    · rename_i hcreator
      split at h
      · simp at h
      · rename_i hto
        split at h
        · simp at h
        · split at h
          · simp at h
          · simp only [Except.ok.injEq, Prod.mk.injEq] at h
            exact ⟨h.2.symm, not_not.mp hminter, hcreator, hto, h.1.symm⟩

/-- Success shape of `NFT.burn`: ownership and the per-token approval are
cleared; nothing else — in particular `nextTokenId` — changes. -/
theorem burn_ok_shape {st : State} {caller : Addr} {tokenId : Nat} {st' : State}
    (h : burn st caller tokenId = .ok st') :
    st.owners tokenId ≠ 0 ∧
    st' = { st with
            owners := setF st.owners tokenId 0
            tokenApprovals := setF st.tokenApprovals tokenId 0 } := by
  simp only [burn] at h
  split at h
  · simp at h
  · rename_i hown
    split at h
    · simp at h
    · simp only [Except.ok.injEq] at h
      exact ⟨hown, h.symm⟩

/-- Success shape of `NFT.setTokenRoyalty`: only the royalty entry changes. -/
theorem setTokenRoyalty_ok_shape {st : State} {caller : Addr} {tokenId : Nat}
    {receiver : Addr} {bps : Nat} {st' : State}
    (h : setTokenRoyalty st caller tokenId receiver bps = .ok st') :
    st.owners tokenId ≠ 0 ∧
    (st.creators tokenId = caller ∨ st.admins caller) ∧
    bps ≤ 1000 ∧ receiver ≠ 0 ∧
    st' = { st with tokenRoyalty := setF st.tokenRoyalty tokenId (receiver, bps) } := by
  simp only [setTokenRoyalty] at h
  split at h
  · simp at h
  · rename_i hex
    split at h
    · simp at h
    · rename_i hauth
      split at h
      · simp at h
      · rename_i hbps
        split at h
        · simp at h
        · rename_i u heq
          have hb10000 : ¬ 10000 < bps := by omega
          have hrec : receiver ≠ 0 := by
            by_contra hr
            simp [erc2981SetChecks, hb10000, hr] at heq
          simp only [Except.ok.injEq] at h
          exact ⟨hex, not_not.mp hauth, by omega, hrec, h.symm⟩

/-- Success shape of `NFT.setDefaultRoyalty`: only the default rate
changes. -/
theorem setDefaultRoyalty_ok_shape {st : State} {caller : Addr} {bps : Nat}
    {st' : State} (h : setDefaultRoyalty st caller bps = .ok st') :
    st.admins caller = true ∧ bps ≤ 1000 ∧
    st' = { st with defaultRoyaltyBps := bps } := by
  simp only [setDefaultRoyalty] at h
  split at h
  · simp at h
  · rename_i hadm
    split at h
    · simp at h
    · simp only [Except.ok.injEq] at h
      exact ⟨not_not.mp hadm, by omega, h.symm⟩

end NFT

/-! ## NFTMultiEdition.sol — the multi-edition (ERC-1155) ledger -/

namespace NFTMultiEdition

/-- `NFTMultiEdition.TokenType`: the per-type record. -/
structure TokenType where
  creator : Addr
  uri : String
  /-- `0` means unlimited -/
  maxSupply : Nat
  mintedSupply : Nat
  deriving DecidableEq, Repr

/-- The zero-initialized mapping slot: a type id that was never created. -/
def emptyTokenType : TokenType := ⟨0, "", 0, 0⟩

/-- Storage of the `NFTMultiEdition` contract (plus the inherited ERC1155 /
ERC2981 / AccessControl storage the modelled functions touch). -/
structure State where
  /-- holders of `MINTER_ROLE` -/
  minters : Addr → Bool
  /-- holders of `DEFAULT_ADMIN_ROLE` -/
  admins : Addr → Bool
  /-- `_nextTokenTypeId` -/
  nextTokenTypeId : Nat
  /-- `_tokenTypes` -/
  tokenTypes : Nat → TokenType
  /-- ERC1155 `_balances`, as holder → id → quantity -/
  balances : Addr → Nat → Nat
  /-- `defaultRoyaltyBps` -/
  defaultRoyaltyBps : Nat
  /-- ERC2981 `_tokenRoyaltyInfo` as (receiver, fraction) -/
  tokenRoyalty : Nat → Addr × Nat
  /-- ERC2981 `_defaultRoyaltyInfo` (never written by this contract) -/
  defaultRoyaltyInfo : Addr × Nat
  /-- ERC1155 `_operatorApprovals` -/
  approvedForAll : Addr → Addr → Bool

/-- `NFTMultiEdition.createEdition(creator, tokenUri, maxSupply)`: minter-only;
rejects a null creator and an empty URI; allocates the next type id with
`mintedSupply = 0` and records the default royalty for the creator. -/
def createEdition (st : State) (caller creator : Addr) (tokenUri : String)
    (maxSupply : Nat) : Except SolError (State × Nat) :=
  if ¬ st.minters caller then .error .unauthorized
  else if creator = 0 then .error .invalidCreator
  else if tokenUri.length = 0 then .error .invalidURI
  else
    let tokenTypeId := st.nextTokenTypeId
    match erc2981SetChecks creator st.defaultRoyaltyBps with
    | .error e => .error e
    | .ok _ =>
      .ok ({ st with
              nextTokenTypeId := tokenTypeId + 1
              tokenTypes := setF st.tokenTypes tokenTypeId ⟨creator, tokenUri, maxSupply, 0⟩
              tokenRoyalty := setF st.tokenRoyalty tokenTypeId (creator, st.defaultRoyaltyBps) },
            tokenTypeId)

/-- `NFTMultiEdition.mintEdition(to, tokenTypeId, amount)`: minter-only;
rejects `amount = 0` and an unknown type; when the type is bounded rejects
`mintedSupply + amount > maxSupply`; otherwise adds `amount` to both
`mintedSupply` and the recipient's balance. -/
def mintEdition (st : State) (caller toAddr : Addr) (tokenTypeId amount : Nat) :
    Except SolError State :=
  if ¬ st.minters caller then .error .unauthorized
  else if amount = 0 then .error .invalidAmount
  else if (st.tokenTypes tokenTypeId).creator = 0 then .error .notFound
  else
    let tokenType := st.tokenTypes tokenTypeId
    if 0 < tokenType.maxSupply ∧ tokenType.maxSupply < tokenType.mintedSupply + amount then
      .error .supplyExceeded
    else if toAddr = 0 then .error .invalidReceiver
    else
      .ok { st with
              tokenTypes := setF st.tokenTypes tokenTypeId
                { tokenType with mintedSupply := tokenType.mintedSupply + amount }
              balances := setF2 st.balances toAddr tokenTypeId
                (st.balances toAddr tokenTypeId + amount) }

/-- `NFTMultiEdition.createAndMint(to, creator, tokenUri, maxSupply, amount)`:
minter-only; rejects `amount = 0` and, when bounded, `amount > maxSupply`;
allocates the next type id with `mintedSupply = amount`, records the default
royalty, and credits the recipient.  Note that, unlike `createEdition`, it
performs no null-creator or empty-URI validation of its own. -/
def createAndMint (st : State) (caller toAddr creator : Addr)
    (tokenUri : String) (maxSupply amount : Nat) :
    Except SolError (State × Nat) :=
  if ¬ st.minters caller then .error .unauthorized
  else if amount = 0 then .error .invalidAmount
  else if ¬ (maxSupply = 0 ∨ amount ≤ maxSupply) then .error .supplyExceeded
  else
    let tokenTypeId := st.nextTokenTypeId
    match erc2981SetChecks creator st.defaultRoyaltyBps with
    | .error e => .error e
    | .ok _ =>
      if toAddr = 0 then .error .invalidReceiver
      else
        .ok ({ st with
                nextTokenTypeId := tokenTypeId + 1
                tokenTypes := setF st.tokenTypes tokenTypeId ⟨creator, tokenUri, maxSupply, amount⟩
                tokenRoyalty := setF st.tokenRoyalty tokenTypeId (creator, st.defaultRoyaltyBps)
                balances := setF2 st.balances toAddr tokenTypeId
                  (st.balances toAddr tokenTypeId + amount) },
              tokenTypeId)

/-- `NFTMultiEdition.setTokenRoyalty(tokenTypeId, receiver, royaltyBps)`:
type must exist, caller must be the type's creator or an admin, rate capped
at 1000 bps. -/
def setTokenRoyalty (st : State) (caller : Addr) (tokenTypeId : Nat)
    (receiver : Addr) (royaltyBps : Nat) : Except SolError State :=
  if (st.tokenTypes tokenTypeId).creator = 0 then .error .notFound
  else if ¬ ((st.tokenTypes tokenTypeId).creator = caller ∨ st.admins caller) then
    .error .unauthorized
  else if 1000 < royaltyBps then .error .invalidRate
  else
    match erc2981SetChecks receiver royaltyBps with
    | .error e => .error e
    | .ok _ => .ok { st with tokenRoyalty := setF st.tokenRoyalty tokenTypeId (receiver, royaltyBps) }

/-- `ERC1155Burnable.burn(account, id, value)`: caller must be the holder or
an approved operator; the holder's balance must cover the burnt amount.
Burning decrements the balance only — `mintedSupply` is untouched. -/
def burn (st : State) (caller account : Addr) (tokenTypeId amount : Nat) :
    Except SolError State :=
  if ¬ (account = caller ∨ st.approvedForAll account caller) then .error .unauthorized
  else if st.balances account tokenTypeId < amount then .error .insufficientBalance
  else
    .ok { st with
            balances := setF2 st.balances account tokenTypeId
              (st.balances account tokenTypeId - amount) }

/-- `NFTMultiEdition.totalTokenTypes()`. -/
def totalTokenTypes (st : State) : Nat := st.nextTokenTypeId

/-- `NFTMultiEdition.tokenTypeExists(tokenTypeId)`. -/
def tokenTypeExists (st : State) (tokenTypeId : Nat) : Bool :=
  decide ((st.tokenTypes tokenTypeId).creator ≠ 0)

/-- `ERC2981.royaltyInfo` as exposed by this contract. -/
def royaltyInfo (st : State) (tokenTypeId salePrice : Nat) : Addr × Nat :=
  erc2981RoyaltyInfo st.tokenRoyalty st.defaultRoyaltyInfo tokenTypeId salePrice

/-- The externally callable state-changing operations of the
`NFTMultiEdition` contract that are modelled here. -/
inductive Op where
  | opCreateEdition (caller creator : Addr) (uri : String) (maxSupply : Nat)
  | opMintEdition (caller toAddr : Addr) (tokenTypeId amount : Nat)
  | opCreateAndMint (caller toAddr creator : Addr) (uri : String) (maxSupply amount : Nat)
  | opSetTokenRoyalty (caller : Addr) (tokenTypeId : Nat) (receiver : Addr) (bps : Nat)
  | opBurn (caller account : Addr) (tokenTypeId amount : Nat)

/-- Apply one operation with revert semantics: a failed call leaves the
state unchanged. -/
def Op.apply (st : State) : Op → State
  | .opCreateEdition caller creator uri maxSupply =>
      match createEdition st caller creator uri maxSupply with
      | .ok (st', _) => st'
      | .error _ => st
  | .opMintEdition caller toAddr tokenTypeId amount =>
      match mintEdition st caller toAddr tokenTypeId amount with
      | .ok st' => st'
      | .error _ => st
  | .opCreateAndMint caller toAddr creator uri maxSupply amount =>
      match createAndMint st caller toAddr creator uri maxSupply amount with
      | .ok (st', _) => st'
      | .error _ => st
  | .opSetTokenRoyalty caller tokenTypeId receiver bps =>
      match setTokenRoyalty st caller tokenTypeId receiver bps with
      | .ok st' => st'
      | .error _ => st
  | .opBurn caller account tokenTypeId amount =>
      match burn st caller account tokenTypeId amount with
      | .ok st' => st'
      | .error _ => st

/-- Allocation invariant: type ids at or above the counter are still the
zero-initialized mapping slot. -/
def Alloc (st : State) : Prop :=
  ∀ id, st.nextTokenTypeId ≤ id → st.tokenTypes id = emptyTokenType

/-- Success shape of `createEdition`: the new type sits at the old counter
with `mintedSupply = 0`. -/
theorem createEdition_ok_shape {st : State} {caller creator : Addr}
    {tokenUri : String} {maxSupply : Nat} {st' : State} {tid : Nat}
    (h : createEdition st caller creator tokenUri maxSupply = .ok (st', tid)) :
    tid = st.nextTokenTypeId ∧ st.minters caller = true ∧ creator ≠ 0 ∧
    tokenUri.length ≠ 0 ∧
    st' = { st with
            nextTokenTypeId := st.nextTokenTypeId + 1
            tokenTypes := setF st.tokenTypes st.nextTokenTypeId
              ⟨creator, tokenUri, maxSupply, 0⟩
            tokenRoyalty := setF st.tokenRoyalty st.nextTokenTypeId
              (creator, st.defaultRoyaltyBps) } := by
  simp only [createEdition] at h
  split at h
  · simp at h
  · rename_i hminter
    split at h
    · simp at h
    · rename_i hcreator
      split at h
      · simp at h
      · rename_i huri
        split at h
        · simp at h
        · simp only [Except.ok.injEq, Prod.mk.injEq] at h
          exact ⟨h.2.symm, not_not.mp hminter, hcreator, huri, h.1.symm⟩

/-- Success shape of `mintEdition`: `mintedSupply` and the recipient balance
both grow by `amount`; everything else is unchanged. -/
theorem mintEdition_ok_shape {st : State} {caller toAddr : Addr}
    {tokenTypeId amount : Nat} {st' : State}
    (h : mintEdition st caller toAddr tokenTypeId amount = .ok st') :
    st.minters caller = true ∧ amount ≠ 0 ∧
    (st.tokenTypes tokenTypeId).creator ≠ 0 ∧
    (0 < (st.tokenTypes tokenTypeId).maxSupply →
      (st.tokenTypes tokenTypeId).mintedSupply + amount ≤
        (st.tokenTypes tokenTypeId).maxSupply) ∧
    toAddr ≠ 0 ∧
    st' = { st with
            tokenTypes := setF st.tokenTypes tokenTypeId
              { st.tokenTypes tokenTypeId with
                  mintedSupply := (st.tokenTypes tokenTypeId).mintedSupply + amount }
            balances := setF2 st.balances toAddr tokenTypeId
              (st.balances toAddr tokenTypeId + amount) } := by
  simp only [mintEdition] at h
  split at h
  · simp at h
  · rename_i hminter
    split at h
    · simp at h
    · rename_i hamount
      split at h
      · simp at h
      · rename_i hcreator
        split at h
        · simp at h
        · rename_i hsupply
          split at h
          · simp at h
          · rename_i hto
            simp only [Except.ok.injEq] at h
            refine ⟨not_not.mp hminter, hamount, hcreator, ?_, hto, h.symm⟩
            intro hbounded
            by_contra hover
            exact hsupply ⟨hbounded, by omega⟩

/-- Success shape of `createAndMint`: the new type sits at the old counter
with `mintedSupply = amount` and the recipient credited. -/
theorem createAndMint_ok_shape {st : State} {caller toAddr creator : Addr}
    {tokenUri : String} {maxSupply amount : Nat} {st' : State} {tid : Nat}
    (h : createAndMint st caller toAddr creator tokenUri maxSupply amount = .ok (st', tid)) :
    tid = st.nextTokenTypeId ∧ st.minters caller = true ∧ amount ≠ 0 ∧
    (maxSupply = 0 ∨ amount ≤ maxSupply) ∧ creator ≠ 0 ∧ toAddr ≠ 0 ∧
    st' = { st with
            nextTokenTypeId := st.nextTokenTypeId + 1
            tokenTypes := setF st.tokenTypes st.nextTokenTypeId
              ⟨creator, tokenUri, maxSupply, amount⟩
            tokenRoyalty := setF st.tokenRoyalty st.nextTokenTypeId
              (creator, st.defaultRoyaltyBps)
            balances := setF2 st.balances toAddr st.nextTokenTypeId
              (st.balances toAddr st.nextTokenTypeId + amount) } := by
  simp only [createAndMint, erc2981SetChecks] at h
  split at h
  · simp at h
  · rename_i hminter
    split at h
    · simp at h
    · rename_i hamount
      split at h
      · simp at h
      · rename_i hsupply
        split at h
        · simp at h
        · rename_i u heq
          split at h
          · simp at h
          · rename_i hto
            have hcreator : creator ≠ 0 := by
              by_contra hc
              split at heq
              · simp at heq
              · simp [hc] at heq
            simp only [Except.ok.injEq, Prod.mk.injEq] at h
            exact ⟨h.2.symm, not_not.mp hminter, hamount, not_not.mp hsupply,
              hcreator, hto, h.1.symm⟩

/-- Success shape of the multi-edition `setTokenRoyalty`: only the royalty
entry changes. -/
theorem setTokenRoyaltyME_ok_shape {st : State} {caller : Addr}
    {tokenTypeId : Nat} {receiver : Addr} {bps : Nat} {st' : State}
    (h : setTokenRoyalty st caller tokenTypeId receiver bps = .ok st') :
    (st.tokenTypes tokenTypeId).creator ≠ 0 ∧
    ((st.tokenTypes tokenTypeId).creator = caller ∨ st.admins caller) ∧
    bps ≤ 1000 ∧ receiver ≠ 0 ∧
    st' = { st with tokenRoyalty := setF st.tokenRoyalty tokenTypeId (receiver, bps) } := by
  simp only [setTokenRoyalty] at h
  split at h
  · simp at h
  · rename_i hex
    split at h
    · simp at h
    · rename_i hauth
      split at h
      · simp at h
      · rename_i hbps
        split at h
        · simp at h
        · rename_i u heq
          have hb10000 : ¬ 10000 < bps := by omega
          have hrec : receiver ≠ 0 := by
            by_contra hr
            simp [erc2981SetChecks, hb10000, hr] at heq
          simp only [Except.ok.injEq] at h
          exact ⟨hex, not_not.mp hauth, by omega, hrec, h.symm⟩

/-- Success shape of the multi-edition `burn`: only the holder's balance
shrinks; `mintedSupply` and the type record are untouched. -/
theorem burnME_ok_shape {st : State} {caller account : Addr}
    {tokenTypeId amount : Nat} {st' : State}
    (h : burn st caller account tokenTypeId amount = .ok st') :
    (account = caller ∨ st.approvedForAll account caller) ∧
    amount ≤ st.balances account tokenTypeId ∧
    st' = { st with
            balances := setF2 st.balances account tokenTypeId
              (st.balances account tokenTypeId - amount) } := by
  simp only [burn] at h
  split at h
  · simp at h
  · rename_i hauth
    split at h
    · simp at h
    · rename_i hbal
      simp only [Except.ok.injEq] at h
      exact ⟨not_not.mp hauth, by omega, h.symm⟩

end NFTMultiEdition

/-! ## Marketplace.sol — the settlement engine -/

namespace Marketplace

/-- `Marketplace.TokenStandard`. -/
inductive TokenStandard where
  | erc721
  | erc1155
  deriving DecidableEq, Repr

/-- `Marketplace.ListingStatus`.  `active` is the first enum member, so it is
the value held by a zero-initialized mapping slot. -/
inductive ListingStatus where
  | active
  | sold
  | cancelled
  deriving DecidableEq, Repr

/-- `Marketplace.Listing`. -/
structure Listing where
  seller : Addr
  tokenContract : Addr
  tokenId : Nat
  /-- `1` for ERC721, variable for ERC1155 -/
  amount : Nat
  /-- price in wei -/
  price : Nat
  standard : TokenStandard
  status : ListingStatus
  createdAt : Nat
  deriving DecidableEq, Repr

/-- The zero-initialized mapping slot: a listing id never allocated.  Note its
status is `active` and its standard is `erc721`, the respective first enum
members. -/
def emptyListing : Listing := ⟨0, 0, 0, 0, 0, .erc721, .active, 0⟩

/-- The amounts computed for the `Sale` event of a successful `buy`. -/
structure SaleInfo where
  price : Nat
  platformFee : Nat
  royaltyAmount : Nat
  sellerProceeds : Nat
  royaltyReceiver : Addr
  deriving DecidableEq, Repr

/-- The observations the Marketplace makes of a token contract and of ETH
recipients through external calls.  Universally quantified in the theorems:
the token contract may answer arbitrarily (it may even be malicious). -/
structure TokenEnv where
  /-- `IERC721.ownerOf`, with `0` for a nonexistent token -/
  ownerOf : Nat → Addr
  /-- `IERC721.getApproved` -/
  getApproved : Nat → Addr
  /-- `isApprovedForAll` (ERC721 and ERC1155) -/
  isApprovedForAll : Addr → Addr → Bool
  /-- `IERC1155.balanceOf` -/
  balanceOf : Addr → Nat → Nat
  /-- `supportsInterface(type(IERC2981).interfaceId)`, with a reverting probe
  treated as `false` -/
  supportsRoyalty : Bool
  /-- `IERC2981.royaltyInfo(tokenId, salePrice)` -/
  royaltyInfo : Nat → Nat → Addr × Nat
  /-- whether `safeTransferFrom(from, to, tokenId, amount)` succeeds -/
  transferOk : Addr → Addr → Nat → Nat → Bool
  /-- whether a plain ETH transfer to this address succeeds -/
  ethAccepts : Addr → Bool

/-- Storage of the `Marketplace` contract. -/
structure State where
  /-- `Ownable.owner()` -/
  owner : Addr
  /-- the marketplace's own address (`address(this)`), as seen in approvals -/
  self : Addr
  /-- `Pausable.paused()` -/
  paused : Bool
  /-- `platformFeeBps` (deployed at 250) -/
  platformFeeBps : Nat
  /-- `feeRecipient` -/
  feeRecipient : Addr
  /-- `_listingIdCounter` -/
  listingIdCounter : Nat
  /-- `listings` -/
  listings : Nat → Listing
  /-- `_sellerListings` -/
  sellerListings : Addr → List Nat
  /-- wei credited to each address by `_transferETH` (the payout ledger) -/
  ethBalances : Addr → Nat

/-- `Marketplace.listERC721(tokenContract, tokenId, price)`. -/
def listERC721 (st : State) (env : TokenEnv) (caller : Addr)
    (tokenContract tokenId price : Nat) (now : Nat) :
    Except SolError (State × Nat) :=
  if st.paused then .error .enforcedPause
  else if price = 0 then .error .invalidPrice
  else if env.ownerOf tokenId ≠ caller then .error .notOwner
  else if ¬ (env.isApprovedForAll caller st.self ∨ env.getApproved tokenId = st.self) then
    .error .notApproved
  else
    let listingId := st.listingIdCounter
    .ok ({ st with
            listingIdCounter := listingId + 1
            listings := setF st.listings listingId
              ⟨caller, tokenContract, tokenId, 1, price, .erc721, .active, now⟩
            sellerListings := setF st.sellerListings caller
              (st.sellerListings caller ++ [listingId]) },
          listingId)

/-- `Marketplace.listERC1155(tokenContract, tokenId, amount, price)`. -/
def listERC1155 (st : State) (env : TokenEnv) (caller : Addr)
    (tokenContract tokenId amount price : Nat) (now : Nat) :
    Except SolError (State × Nat) :=
  if st.paused then .error .enforcedPause
  else if price = 0 then .error .invalidPrice
  else if amount = 0 then .error .invalidAmount
  else if env.balanceOf caller tokenId < amount then .error .insufficientBalance
  else if ¬ env.isApprovedForAll caller st.self then .error .notApproved
  else
    let listingId := st.listingIdCounter
    .ok ({ st with
            listingIdCounter := listingId + 1
            listings := setF st.listings listingId
              ⟨caller, tokenContract, tokenId, amount, price, .erc1155, .active, now⟩
            sellerListings := setF st.sellerListings caller
              (st.sellerListings caller ++ [listingId]) },
          listingId)

/-- The fee/royalty computation of `Marketplace.buy` (its lines between the
payment check and the transfers): platform fee by floor division, the reported
royalty clamped to 10% of the price and zeroed when its receiver is the
seller, the remainder to the seller. -/
def saleAmounts (feeBps : Nat) (env : TokenEnv) (l : Listing) : SaleInfo :=
  let platformFee := l.price * feeBps / 10000
  let reported := env.royaltyInfo l.tokenId l.price
  let royaltyReceiver := if env.supportsRoyalty then reported.1 else 0
  let royaltyAmount :=
    if env.supportsRoyalty then
      -- cap at 10% of the price, then zero if the receiver is the seller
      let maxRoyalty := l.price * 1000 / 10000
      let clamped := if maxRoyalty < reported.2 then maxRoyalty else reported.2
      if reported.1 = l.seller then 0 else clamped
    else 0
  ⟨l.price, platformFee, royaltyAmount, l.price - platformFee - royaltyAmount,
    royaltyReceiver⟩

/-- One `_transferETH` call, on the credit ledger. -/
def credit (bal : Addr → Nat) (a : Addr) (amount : Nat) : Addr → Nat :=
  setF bal a (bal a + amount)

/-- The three payouts of `buy`, in contract order: platform fee (if any),
royalty (if any, to a non-null receiver), seller proceeds. -/
def payout (bal : Addr → Nat) (feeRecipient : Addr) (seller : Addr)
    (sale : SaleInfo) : Addr → Nat :=
  let bal1 := if 0 < sale.platformFee then credit bal feeRecipient sale.platformFee else bal
  let bal2 := if 0 < sale.royaltyAmount ∧ sale.royaltyReceiver ≠ 0 then
      credit bal1 sale.royaltyReceiver sale.royaltyAmount else bal1
  credit bal2 seller sale.sellerProceeds

/-- `Marketplace.buy(listingId)` with `msg.value = value`.  On success the
listing is `sold`, the platform fee goes to the fee recipient, the (clamped)
royalty to the reported receiver, and the remainder to the seller. -/
def buy (st : State) (env : TokenEnv) (caller : Addr) (value : Nat)
    (listingId : Nat) : Except SolError (State × SaleInfo) :=
  if st.paused then .error .enforcedPause
  else
    let l := st.listings listingId
    if l.status ≠ .active then .error .listingNotActive
    else if caller = l.seller then .error .selfPurchase
    else if value ≠ l.price then .error .wrongPayment
    else
      let sale := saleAmounts st.platformFeeBps env l
      if ¬ env.transferOk l.seller caller l.tokenId l.amount then .error .transferFailed
      else if 0 < sale.platformFee ∧ ¬ env.ethAccepts st.feeRecipient then
        .error .ethTransferFailed
      else if 0 < sale.royaltyAmount ∧ sale.royaltyReceiver ≠ 0 ∧
          ¬ env.ethAccepts sale.royaltyReceiver then .error .ethTransferFailed
      else if ¬ env.ethAccepts l.seller then .error .ethTransferFailed
      else
        .ok ({ st with
                listings := setF st.listings listingId { l with status := .sold }
                ethBalances := payout st.ethBalances st.feeRecipient l.seller sale },
              sale)

/-- `Marketplace.cancelListing(listingId)`: the listing must be active and the
caller its seller or the contract owner.  Note: no `whenNotPaused` modifier. -/
def cancelListing (st : State) (caller : Addr) (listingId : Nat) :
    Except SolError State :=
  let l := st.listings listingId
  if l.status ≠ .active then .error .listingNotActive
  else if ¬ (l.seller = caller ∨ caller = st.owner) then .error .unauthorized
  else .ok { st with listings := setF st.listings listingId { l with status := .cancelled } }

/-- `Marketplace.setPlatformFee(newFeeBps)`: owner-only, capped at 1000 bps. -/
def setPlatformFee (st : State) (caller : Addr) (newFeeBps : Nat) :
    Except SolError State :=
  if caller ≠ st.owner then .error .unauthorized
  else if 1000 < newFeeBps then .error .feeTooHigh
  else .ok { st with platformFeeBps := newFeeBps }

/-- `Marketplace.setFeeRecipient(newRecipient)`: owner-only, non-null. -/
def setFeeRecipient (st : State) (caller : Addr) (newRecipient : Addr) :
    Except SolError State :=
  if caller ≠ st.owner then .error .unauthorized
  else if newRecipient = 0 then .error .invalidRecipient
  else .ok { st with feeRecipient := newRecipient }

/-- `Marketplace.pause()`: owner-only; `_pause` requires not paused. -/
def pause (st : State) (caller : Addr) : Except SolError State :=
  if caller ≠ st.owner then .error .unauthorized
  else if st.paused then .error .enforcedPause
  else .ok { st with paused := true }

/-- `Marketplace.unpause()`: owner-only; `_unpause` requires paused. -/
def unpause (st : State) (caller : Addr) : Except SolError State :=
  if caller ≠ st.owner then .error .unauthorized
  else if ¬ st.paused then .error .expectedPause
  else .ok { st with paused := false }

/-- `Marketplace.getListing(listingId)`: an unchecked mapping read. -/
def getListing (st : State) (listingId : Nat) : Listing :=
  st.listings listingId

/-- `Marketplace.totalListings()`. -/
def totalListings (st : State) : Nat := st.listingIdCounter

/-- `Marketplace.isListingActive(listingId)`: an unchecked status
comparison. -/
def isListingActive (st : State) (listingId : Nat) : Bool :=
  decide ((st.listings listingId).status = .active)

/-- The externally callable state-changing operations of the `Marketplace`
contract. -/
inductive Op where
  | opListERC721 (env : TokenEnv) (caller tokenContract tokenId price now : Nat)
  | opListERC1155 (env : TokenEnv) (caller tokenContract tokenId amount price now : Nat)
  | opBuy (env : TokenEnv) (caller value listingId : Nat)
  | opCancel (caller listingId : Nat)
  | opSetPlatformFee (caller bps : Nat)
  | opSetFeeRecipient (caller recipient : Nat)
  | opPause (caller : Nat)
  | opUnpause (caller : Nat)

/-- Apply one operation with revert semantics: a failed call leaves the
state unchanged. -/
def Op.apply (st : State) : Op → State
  | .opListERC721 env caller tokenContract tokenId price now =>
      match listERC721 st env caller tokenContract tokenId price now with
      | .ok (st', _) => st'
      | .error _ => st
  | .opListERC1155 env caller tokenContract tokenId amount price now =>
      match listERC1155 st env caller tokenContract tokenId amount price now with
      | .ok (st', _) => st'
      | .error _ => st
  | .opBuy env caller value listingId =>
      match buy st env caller value listingId with
      | .ok (st', _) => st'
      | .error _ => st
  | .opCancel caller listingId =>
      match cancelListing st caller listingId with
      | .ok st' => st'
      | .error _ => st
  | .opSetPlatformFee caller bps =>
      match setPlatformFee st caller bps with
      | .ok st' => st'
      | .error _ => st
  | .opSetFeeRecipient caller recipient =>
      match setFeeRecipient st caller recipient with
      | .ok st' => st'
      | .error _ => st
  | .opPause caller =>
      match pause st caller with
      | .ok st' => st'
      | .error _ => st
  | .opUnpause caller =>
      match unpause st caller with
      | .ok st' => st'
      | .error _ => st

/-- Allocation invariant: listing ids at or above the counter are still the
zero-initialized mapping slot. -/
def Alloc (st : State) : Prop :=
  ∀ id, st.listingIdCounter ≤ id → st.listings id = emptyListing

/-- Success shape of `listERC721`: the new listing sits at the old counter,
is `active`, and nothing else changes. -/
theorem listERC721_ok_shape {st : State} {env : TokenEnv}
    {caller tokenContract tokenId price now : Nat} {st' : State} {lid : Nat}
    (h : listERC721 st env caller tokenContract tokenId price now = .ok (st', lid)) :
    lid = st.listingIdCounter ∧
    st' = { st with
            listingIdCounter := st.listingIdCounter + 1
            listings := setF st.listings st.listingIdCounter
              ⟨caller, tokenContract, tokenId, 1, price, .erc721, .active, now⟩
            sellerListings := setF st.sellerListings caller
              (st.sellerListings caller ++ [st.listingIdCounter]) } := by
  simp only [listERC721] at h
  split at h
  · simp at h
  · split at h
    · simp at h
    · split at h
      · simp at h
      · split at h
        · simp at h
        · simp only [Except.ok.injEq, Prod.mk.injEq] at h
          exact ⟨h.2.symm, h.1.symm⟩

/-- Success shape of `listERC1155`. -/
theorem listERC1155_ok_shape {st : State} {env : TokenEnv}
    {caller tokenContract tokenId amount price now : Nat} {st' : State} {lid : Nat}
    (h : listERC1155 st env caller tokenContract tokenId amount price now = .ok (st', lid)) :
    lid = st.listingIdCounter ∧
    st' = { st with
            listingIdCounter := st.listingIdCounter + 1
            listings := setF st.listings st.listingIdCounter
              ⟨caller, tokenContract, tokenId, amount, price, .erc1155, .active, now⟩
            sellerListings := setF st.sellerListings caller
              (st.sellerListings caller ++ [st.listingIdCounter]) } := by
  simp only [listERC1155] at h
  split at h
  · simp at h
  · split at h
    · simp at h
    · split at h
      · simp at h
      · split at h
        · simp at h
        · split at h
          · simp at h
          · simp only [Except.ok.injEq, Prod.mk.injEq] at h
            exact ⟨h.2.symm, h.1.symm⟩

/-- Success shape of `buy`: it requires an active listing, a buyer distinct
from the seller and an exact payment; it marks the listing `sold`, performs
the payout, and touches nothing else. -/
theorem buy_ok_shape {st : State} {env : TokenEnv} {caller value listingId : Nat}
    {st' : State} {sale : SaleInfo}
    (h : buy st env caller value listingId = .ok (st', sale)) :
    st.paused = false ∧
    (st.listings listingId).status = .active ∧
    caller ≠ (st.listings listingId).seller ∧
    value = (st.listings listingId).price ∧
    sale = saleAmounts st.platformFeeBps env (st.listings listingId) ∧
    st' = { st with
            listings := setF st.listings listingId
              { st.listings listingId with status := .sold }
            ethBalances := payout st.ethBalances st.feeRecipient
              (st.listings listingId).seller
              (saleAmounts st.platformFeeBps env (st.listings listingId)) } := by
  simp only [buy] at h
  split at h
  · simp at h
  · rename_i hpause
    split at h
    · simp at h
    · rename_i hstatus
      split at h
      · simp at h
      · rename_i hseller
        split at h
        · simp at h
        · rename_i hvalue
          split at h
          · simp at h
          · split at h
            · simp at h
            · split at h
              · simp at h
              · split at h
                · simp at h
                · simp only [Except.ok.injEq, Prod.mk.injEq] at h
                  refine ⟨by simpa using hpause, by simpa using hstatus,
                    hseller, by simpa using hvalue, h.2.symm, h.1.symm⟩

/-- Success shape of `cancelListing`: it requires an active listing and the
seller or owner as caller; it marks the listing `cancelled` and touches
nothing else. -/
theorem cancelListing_ok_shape {st : State} {caller listingId : Nat} {st' : State}
    (h : cancelListing st caller listingId = .ok st') :
    (st.listings listingId).status = .active ∧
    ((st.listings listingId).seller = caller ∨ caller = st.owner) ∧
    st' = { st with
            listings := setF st.listings listingId
              { st.listings listingId with status := .cancelled } } := by
  simp only [cancelListing] at h
  split at h
  · simp at h
  · rename_i hstatus
    split at h
    · simp at h
    · rename_i hauth
      simp only [Except.ok.injEq] at h
      exact ⟨by simpa using hstatus, not_not.mp hauth, h.symm⟩

/-- Success shape of `setPlatformFee`: owner-only, at most 1000 bps, only the
fee changes. -/
theorem setPlatformFee_ok_shape {st : State} {caller newFeeBps : Nat} {st' : State}
    (h : setPlatformFee st caller newFeeBps = .ok st') :
    caller = st.owner ∧ newFeeBps ≤ 1000 ∧
    st' = { st with platformFeeBps := newFeeBps } := by
  simp only [setPlatformFee] at h
  split at h
  · simp at h
  · rename_i hown
    split at h
    · simp at h
    · rename_i hcap
      simp only [Except.ok.injEq] at h
      exact ⟨by simpa using hown, by omega, h.symm⟩

/-- Success shape of `setFeeRecipient`. -/
theorem setFeeRecipient_ok_shape {st : State} {caller newRecipient : Nat} {st' : State}
    (h : setFeeRecipient st caller newRecipient = .ok st') :
    caller = st.owner ∧ newRecipient ≠ 0 ∧
    st' = { st with feeRecipient := newRecipient } := by
  simp only [setFeeRecipient] at h
  split at h
  · simp at h
  · rename_i hown
    split at h
    · simp at h
    · rename_i hnz
      simp only [Except.ok.injEq] at h
      exact ⟨by simpa using hown, hnz, h.symm⟩

/-- Success shape of `pause`. -/
theorem pause_ok_shape {st : State} {caller : Nat} {st' : State}
    (h : pause st caller = .ok st') :
    caller = st.owner ∧ st.paused = false ∧ st' = { st with paused := true } := by
  simp only [pause] at h
  split at h
  · simp at h
  · rename_i hown
    split at h
    · simp at h
    · rename_i hp
      simp only [Except.ok.injEq] at h
      exact ⟨by simpa using hown, by simpa using hp, h.symm⟩

/-- Success shape of `unpause`. -/
theorem unpause_ok_shape {st : State} {caller : Nat} {st' : State}
    (h : unpause st caller = .ok st') :
    caller = st.owner ∧ st.paused = true ∧ st' = { st with paused := false } := by
  simp only [unpause] at h
  split at h
  · simp at h
  · rename_i hown
    split at h
    · simp at h
    · rename_i hp
      simp only [Except.ok.injEq] at h
      exact ⟨by simpa using hown, by simpa using hp, h.symm⟩

/-- Exactness and caps of the fee/royalty computation, for any fee at most
1000 bps and any reported royalty. -/
theorem saleAmounts_spec (feeBps : Nat) (env : TokenEnv) (l : Listing)
    (hfee : feeBps ≤ 1000) :
    (saleAmounts feeBps env l).platformFee = l.price * feeBps / 10000 ∧
    (saleAmounts feeBps env l).royaltyAmount ≤ l.price * 1000 / 10000 ∧
    ((env.royaltyInfo l.tokenId l.price).1 = l.seller →
      (saleAmounts feeBps env l).royaltyAmount = 0) ∧
    (saleAmounts feeBps env l).platformFee + (saleAmounts feeBps env l).royaltyAmount +
      (saleAmounts feeBps env l).sellerProceeds = l.price ∧
    (saleAmounts feeBps env l).platformFee ≤ l.price * 1000 / 10000 := by
  have hpf : l.price * feeBps / 10000 ≤ l.price * 1000 / 10000 :=
    Nat.div_le_div_right (Nat.mul_le_mul_left _ hfee)
  refine ⟨rfl, ?_, ?_, ?_, hpf⟩
  · simp only [saleAmounts]
    split_ifs <;> omega
  · intro hrec
    simp only [saleAmounts]
    split_ifs <;> simp_all
  · simp only [saleAmounts]
    split_ifs <;> omega

end Marketplace

/-! ## Concrete sample states used by witnesses and counterexamples -/

/-- A freshly deployed marketplace: owner `1`, own address `5`, fee recipient
`4`, the deployment-time fee of 250 bps, and zero-initialized mappings. -/
def mkMarketState : Marketplace.State where
  owner := 1
  self := 5
  paused := false
  platformFeeBps := 250
  feeRecipient := 4
  listingIdCounter := 0
  listings := fun _ => Marketplace.emptyListing
  sellerListings := fun _ => []
  ethBalances := fun _ => 0

/-- A cooperative token environment: no royalty support, all transfers and
ETH sends succeed, every holder owns 100 units of every id. -/
def plainEnv : Marketplace.TokenEnv where
  ownerOf := fun _ => 2
  getApproved := fun _ => 0
  isApprovedForAll := fun _ _ => true
  balanceOf := fun _ _ => 100
  supportsRoyalty := false
  royaltyInfo := fun _ _ => (0, 0)
  transferOk := fun _ _ _ _ => true
  ethAccepts := fun _ => true

/-- Marketplace holding one active ERC-721 listing (id 0): seller `2`,
token contract `10`, token 0, price 100. -/
def c1State : Marketplace.State :=
  { mkMarketState with
      listingIdCounter := 1
      listings := setF (fun _ => Marketplace.emptyListing) 0
        ⟨2, 10, 0, 1, 100, .erc721, .active, 0⟩ }

/-- Buyer `7` pays exactly 100 for listing 0. -/
def c1Run : Except SolError (Marketplace.State × Marketplace.SaleInfo) :=
  Marketplace.buy c1State plainEnv 7 100 0

/-- The `SaleInfo` of the sample purchase. -/
def c1Sale : Marketplace.SaleInfo :=
  match c1Run with
  | .ok (_, s) => s
  | .error _ => ⟨0, 0, 0, 0, 0⟩

/-- The post-state of the sample purchase. -/
def c1StateAfter : Marketplace.State :=
  match c1Run with
  | .ok (s, _) => s
  | .error _ => c1State

/-! ## C1 — the payment split of a successful `buy` -/

/-- C1: for every successful `buy(listingId)` the split is exact and capped:
`platformFee = floor(price * platformFeeBps / 10000)`; the royalty is clamped
to at most `floor(price * 1000 / 10000)` no matter what the token contract's
`royaltyInfo` reports; the royalty is zero whenever the reported receiver is
the listing's seller; `platformFee + royaltyAmount + sellerProceeds = price`
exactly; and both `platformFee` and `royaltyAmount` are at most 10% of the
price.  The hypothesis `platformFeeBps ≤ 1000` holds in every reachable
state: it holds at deployment (250) and `setPlatformFee` rejects larger
values (see `platformFee_bound_invariant`). -/
theorem claim1_buy_split (st : Marketplace.State) (env : Marketplace.TokenEnv)
    (caller value listingId : Nat) (st' : Marketplace.State)
    (sale : Marketplace.SaleInfo)
    (hfee : st.platformFeeBps ≤ 1000)
    (h : Marketplace.buy st env caller value listingId = .ok (st', sale)) :
    sale.platformFee = (st.listings listingId).price * st.platformFeeBps / 10000 ∧
    sale.royaltyAmount ≤ (st.listings listingId).price * 1000 / 10000 ∧
    ((env.royaltyInfo (st.listings listingId).tokenId (st.listings listingId).price).1 =
        (st.listings listingId).seller → sale.royaltyAmount = 0) ∧
    sale.platformFee + sale.royaltyAmount + sale.sellerProceeds =
      (st.listings listingId).price ∧
    sale.platformFee ≤ (st.listings listingId).price * 1000 / 10000 := by
  have hsale : sale = Marketplace.saleAmounts st.platformFeeBps env (st.listings listingId) := by
    simp only [Marketplace.buy] at h
    split at h
    · simp at h
    · split at h
      · simp at h
      · split at h
        · simp at h
        · split at h
          · simp at h
          · split at h
            · simp at h
            · split at h
              · simp at h
              · split at h
                · simp at h
                · split at h
                  · simp at h
                  · simp only [Except.ok.injEq, Prod.mk.injEq] at h
                    exact h.2.symm
  subst hsale
  exact Marketplace.saleAmounts_spec st.platformFeeBps env (st.listings listingId) hfee

/-- Witness for C1: the sample purchase `c1Run` succeeds and satisfies the
split equations (fee 2 wei on a price of 100 at 250 bps, no royalty). -/
theorem claim1_buy_split_witness :
    c1State.platformFeeBps ≤ 1000 ∧
    (c1Sale.platformFee = (c1State.listings 0).price * c1State.platformFeeBps / 10000 ∧
     c1Sale.royaltyAmount ≤ (c1State.listings 0).price * 1000 / 10000 ∧
     ((plainEnv.royaltyInfo (c1State.listings 0).tokenId (c1State.listings 0).price).1 =
         (c1State.listings 0).seller → c1Sale.royaltyAmount = 0) ∧
     c1Sale.platformFee + c1Sale.royaltyAmount + c1Sale.sellerProceeds =
       (c1State.listings 0).price ∧
     c1Sale.platformFee ≤ (c1State.listings 0).price * 1000 / 10000) :=
  ⟨by decide,
   claim1_buy_split c1State plainEnv 7 100 0 c1StateAfter c1Sale (by decide) rfl⟩

/-! ## C2 — the payment `buy` requires

The claim says a multi-edition listing of quantity `q` at unit price `p`
requires payment `p × q`.  The contract stores the `price` argument of
`listERC1155` (documented "Price per token in wei") unmultiplied, and `buy`
requires `msg.value == listing.price` — the single stored field — so a
3-edition listing at unit price 2 sells for 2 wei, not 6. -/

/-- Seller `2` lists 3 editions of token 0 (contract `11`) at unit price 2. -/
def c2Run0 : Except SolError (Marketplace.State × Nat) :=
  Marketplace.listERC1155 mkMarketState plainEnv 2 11 0 3 2 0

/-- The marketplace state after the quantity-3, unit-price-2 listing. -/
def c2State : Marketplace.State :=
  match c2Run0 with
  | .ok (s, _) => s
  | .error _ => mkMarketState

/-- Counterexample to C2 as stated: for the quantity-3, unit-price-2 listing,
paying `unitPrice × quantity = 6` fails with `WrongPayment`, while paying 2
(one unit's price, not the claimed `p × q`) succeeds. -/
theorem claim2_counterexample :
    (c2State.listings 0).amount = 3 ∧
    (c2State.listings 0).price = 2 ∧
    Marketplace.buy c2State plainEnv 7 (2 * 3) 0 = .error .wrongPayment ∧
    exceptIsOk (Marketplace.buy c2State plainEnv 7 2 0) = true :=
  ⟨rfl, rfl, rfl, rfl⟩

/-- C2 as amended: `buy` succeeds only when the paid value exactly equals
`listing.price` — the single stored price field, which is the full payment
for the whole listing regardless of its quantity — and, on an active listing
bought by a non-seller while unpaused, any other paid value fails with
`WrongPayment` (and, by the all-or-nothing revert semantics of the embedding,
changes no state). -/
theorem claim2_exact_payment (st : Marketplace.State) (env : Marketplace.TokenEnv)
    (caller value listingId : Nat) :
    (∀ st' sale, Marketplace.buy st env caller value listingId = .ok (st', sale) →
      value = (st.listings listingId).price) ∧
    (st.paused = false →
      (st.listings listingId).status = .active →
      caller ≠ (st.listings listingId).seller →
      value ≠ (st.listings listingId).price →
      Marketplace.buy st env caller value listingId = .error .wrongPayment) := by
  constructor
  · intro st' sale h
    exact (Marketplace.buy_ok_shape h).2.2.2.1
  · intro hpause hstatus hcaller hvalue
    simp [Marketplace.buy, hpause, hstatus, hcaller, hvalue]

/-- Witness for C2 (amended): paying 50 for the price-100 listing of
`c1State` fails with `WrongPayment`. -/
theorem claim2_exact_payment_witness :
    Marketplace.buy c1State plainEnv 7 50 0 = .error .wrongPayment :=
  (claim2_exact_payment c1State plainEnv 7 50 0).2 rfl rfl (by decide) (by decide)

/-! ## C3 — listing status is monotone -/

/-- C3: under the allocation invariant, once a listing's status is terminal
(`sold` or `cancelled`, i.e. not `active`), no marketplace operation — listing,
buying, cancelling or any administrative call — changes it; moreover `buy` on
such a listing always fails, and (by revert semantics) leaves the whole state
unchanged. -/
theorem claim3_status_monotone (st : Marketplace.State) (id : Nat)
    (hAlloc : Marketplace.Alloc st)
    (hterm : (st.listings id).status ≠ .active) :
    (∀ op : Marketplace.Op,
      ((Marketplace.Op.apply st op).listings id).status = (st.listings id).status) ∧
    (∀ env caller value,
      exceptIsOk (Marketplace.buy st env caller value id) = false ∧
      Marketplace.Op.apply st (.opBuy env caller value id) = st) := by
  have hid : id < st.listingIdCounter := by
    by_contra hge
    push_neg at hge
    have hempty := hAlloc id hge
    rw [hempty] at hterm
    exact hterm rfl
  constructor
  · intro op
    cases op with
    | opListERC721 env caller tokenContract tokenId price now =>
      simp only [Marketplace.Op.apply]
      cases hres : Marketplace.listERC721 st env caller tokenContract tokenId price now with
      | error e => rfl
      | ok p =>
        obtain ⟨st', lid⟩ := p
        obtain ⟨-, hst'⟩ := Marketplace.listERC721_ok_shape hres
        rw [hst']
        exact congrArg Marketplace.Listing.status
          (setF_other st.listings st.listingIdCounter id _ (by omega))
    | opListERC1155 env caller tokenContract tokenId amount price now =>
      simp only [Marketplace.Op.apply]
      cases hres : Marketplace.listERC1155 st env caller tokenContract tokenId amount price now with
      | error e => rfl
      | ok p =>
        obtain ⟨st', lid⟩ := p
        obtain ⟨-, hst'⟩ := Marketplace.listERC1155_ok_shape hres
        rw [hst']
        exact congrArg Marketplace.Listing.status
          (setF_other st.listings st.listingIdCounter id _ (by omega))
    | opBuy env caller value lid =>
      simp only [Marketplace.Op.apply]
      cases hres : Marketplace.buy st env caller value lid with
      | error e => rfl
      | ok p =>
        obtain ⟨st', sale⟩ := p
        obtain ⟨-, hactive, -, -, -, hst'⟩ := Marketplace.buy_ok_shape hres
        have hne : id ≠ lid := by
          intro hEq
          rw [hEq] at hterm
          exact hterm hactive
        rw [hst']
        exact congrArg Marketplace.Listing.status
          (setF_other st.listings lid id _ hne)
    | opCancel caller lid =>
      simp only [Marketplace.Op.apply]
      cases hres : Marketplace.cancelListing st caller lid with
      | error e => rfl
      | ok st' =>
        obtain ⟨hactive, -, hst'⟩ := Marketplace.cancelListing_ok_shape hres
        have hne : id ≠ lid := by
          intro hEq
          rw [hEq] at hterm
          exact hterm hactive
        rw [hst']
        exact congrArg Marketplace.Listing.status
          (setF_other st.listings lid id _ hne)
    | opSetPlatformFee caller bps =>
      simp only [Marketplace.Op.apply]
      cases hres : Marketplace.setPlatformFee st caller bps with
      | error e => rfl
      | ok st' =>
        obtain ⟨-, -, hst'⟩ := Marketplace.setPlatformFee_ok_shape hres
        rw [hst']
    | opSetFeeRecipient caller recipient =>
      simp only [Marketplace.Op.apply]
      cases hres : Marketplace.setFeeRecipient st caller recipient with
      | error e => rfl
      | ok st' =>
        obtain ⟨-, -, hst'⟩ := Marketplace.setFeeRecipient_ok_shape hres
        rw [hst']
    | opPause caller =>
      simp only [Marketplace.Op.apply]
      cases hres : Marketplace.pause st caller with
      | error e => rfl
      | ok st' =>
        obtain ⟨-, -, hst'⟩ := Marketplace.pause_ok_shape hres
        rw [hst']
    | opUnpause caller =>
      simp only [Marketplace.Op.apply]
      cases hres : Marketplace.unpause st caller with
      | error e => rfl
      | ok st' =>
        obtain ⟨-, -, hst'⟩ := Marketplace.unpause_ok_shape hres
        rw [hst']
  · intro env caller value
    have hfail : ∀ st' sale,
        Marketplace.buy st env caller value id ≠ .ok (st', sale) := by
      intro st' sale hok
      exact hterm (Marketplace.buy_ok_shape hok).2.1
    constructor
    · cases hres : Marketplace.buy st env caller value id with
      | error e => rfl
      | ok p => exact absurd hres (hfail p.1 p.2)
    · simp only [Marketplace.Op.apply]
      cases hres : Marketplace.buy st env caller value id with
      | error e => rfl
      | ok p => exact absurd hres (hfail p.1 p.2)

/-- Marketplace holding a listing already `sold` at id 0 (counter 1). -/
def c3State : Marketplace.State :=
  { mkMarketState with
      listingIdCounter := 1
      listings := setF (fun _ => Marketplace.emptyListing) 0
        ⟨2, 10, 0, 1, 100, .erc721, .sold, 0⟩ }

/-- Witness for C3: cancelling the sold listing of `c3State` does not revive
it, and buying it fails. -/
theorem claim3_status_monotone_witness :
    ((Marketplace.Op.apply c3State (.opCancel 2 0)).listings 0).status =
      (c3State.listings 0).status ∧
    exceptIsOk (Marketplace.buy c3State plainEnv 7 100 0) = false := by
  have hAlloc : Marketplace.Alloc c3State := by
    intro i hi
    have hne : i ≠ 0 := by
      have h1 : 1 ≤ i := hi
      omega
    exact setF_other (fun _ => Marketplace.emptyListing) 0 i
      (⟨2, 10, 0, 1, 100, .erc721, .sold, 0⟩ : Marketplace.Listing) hne
  have hterm : (c3State.listings 0).status ≠ .active := by decide
  have h := claim3_status_monotone c3State 0 hAlloc hterm
  exact ⟨h.1 (.opCancel 2 0), (h.2 plainEnv 7 100).1⟩

/-! ## C6 — behaviour while paused -/

/-- C6: while the marketplace is paused, both `list` variants and `buy` fail
immediately (with the `EnforcedPause` error of the `whenNotPaused` modifier,
before any other check), whereas `cancelListing` — which has no pause
modifier — still succeeds on an active listing for its seller or for the
contract owner, marking it `cancelled`. -/
theorem claim6_paused_behaviour (st : Marketplace.State) (env : Marketplace.TokenEnv)
    (caller tokenContract tokenId amount price now value listingId : Nat)
    (hp : st.paused = true) :
    Marketplace.listERC721 st env caller tokenContract tokenId price now =
      .error .enforcedPause ∧
    Marketplace.listERC1155 st env caller tokenContract tokenId amount price now =
      .error .enforcedPause ∧
    Marketplace.buy st env caller value listingId = .error .enforcedPause ∧
    ((st.listings listingId).status = .active →
      ((st.listings listingId).seller = caller ∨ caller = st.owner) →
      Marketplace.cancelListing st caller listingId =
        .ok ({ st with
                listings := setF st.listings listingId
                  { st.listings listingId with status := .cancelled } })) := by
  refine ⟨?_, ?_, ?_, ?_⟩
  · simp [Marketplace.listERC721, hp]
  · simp [Marketplace.listERC1155, hp]
  · simp [Marketplace.buy, hp]
  · intro hactive hauth
    simp [Marketplace.cancelListing, hactive, hauth]

/-- The marketplace of `c1State` (one active listing, seller `2`), paused. -/
def c6State : Marketplace.State := { c1State with paused := true }

/-- Witness for C6: on the paused `c6State`, listing and buying fail with the
pause error while the seller still cancels their pre-existing active
listing. -/
theorem claim6_paused_behaviour_witness :
    Marketplace.listERC721 c6State plainEnv 2 10 1 100 0 = .error .enforcedPause ∧
    Marketplace.listERC1155 c6State plainEnv 2 11 0 3 2 0 = .error .enforcedPause ∧
    Marketplace.buy c6State plainEnv 7 100 0 = .error .enforcedPause ∧
    Marketplace.cancelListing c6State 2 0 =
      .ok ({ c6State with
              listings := setF c6State.listings 0
                { c6State.listings 0 with status := .cancelled } }) := by
  have h := claim6_paused_behaviour c6State plainEnv 2 11 0 3 2 0 100 0 rfl
  have h721 := claim6_paused_behaviour c6State plainEnv 2 10 1 3 100 0 100 0 rfl
  exact ⟨h721.1, h.2.1, h.2.2.1, h.2.2.2 rfl (Or.inl rfl)⟩

/-! ## C9 — reads of a never-allocated listing id -/

/-- C9: under the allocation invariant, for a listing id that was never
allocated (`id ≥ totalListings()`), `isListingActive` returns `true` — the
zero-initialized status enum value is `Active` — and `getListing` returns the
zero-filled record (null seller, zero price) rather than failing. -/
theorem claim9_unallocated_listing (st : Marketplace.State) (id : Nat)
    (hAlloc : Marketplace.Alloc st)
    (h : Marketplace.totalListings st ≤ id) :
    Marketplace.isListingActive st id = true ∧
    Marketplace.getListing st id = Marketplace.emptyListing ∧
    (Marketplace.getListing st id).seller = 0 ∧
    (Marketplace.getListing st id).price = 0 := by
  have he := hAlloc id h
  refine ⟨?_, he, ?_, ?_⟩
  · simp [Marketplace.isListingActive, he, Marketplace.emptyListing]
  · simp [Marketplace.getListing, he, Marketplace.emptyListing]
  · simp [Marketplace.getListing, he, Marketplace.emptyListing]

/-- Witness for C9: on a fresh marketplace, listing id 5 was never allocated,
yet `isListingActive` answers `true` and `getListing` a zero-filled record. -/
theorem claim9_unallocated_listing_witness :
    Marketplace.isListingActive mkMarketState 5 = true ∧
    Marketplace.getListing mkMarketState 5 = Marketplace.emptyListing ∧
    (Marketplace.getListing mkMarketState 5).seller = 0 ∧
    (Marketplace.getListing mkMarketState 5).price = 0 :=
  claim9_unallocated_listing mkMarketState 5 (fun _ _ => rfl) (by decide)

/-! ## C5 — mintEdition supply discipline -/

/-- C5: for a minter, `mintEdition` fails `InvalidAmount` on `amount = 0`,
`NotFound` on an unknown type, `SupplyExceeded` whenever the type is bounded
and `mintedSupply + amount > maxSupply` (leaving all state unchanged, by
revert semantics), and otherwise succeeds — up to exactly `maxSupply` — adding
`amount` to both `mintedSupply` and the recipient's balance; moreover
`mintedSupply` never decreases under any contract operation. -/
theorem claim5_mintEdition_supply :
    (∀ (st : NFTMultiEdition.State) (caller toAddr id amount : Nat),
      st.minters caller = true →
      ((amount = 0 →
         NFTMultiEdition.mintEdition st caller toAddr id amount = .error .invalidAmount) ∧
       (0 < amount → (st.tokenTypes id).creator = 0 →
         NFTMultiEdition.mintEdition st caller toAddr id amount = .error .notFound) ∧
       (0 < amount → (st.tokenTypes id).creator ≠ 0 →
         0 < (st.tokenTypes id).maxSupply →
         (st.tokenTypes id).maxSupply < (st.tokenTypes id).mintedSupply + amount →
         NFTMultiEdition.mintEdition st caller toAddr id amount = .error .supplyExceeded) ∧
       (0 < amount → (st.tokenTypes id).creator ≠ 0 → toAddr ≠ 0 →
         (0 < (st.tokenTypes id).maxSupply →
           (st.tokenTypes id).mintedSupply + amount ≤ (st.tokenTypes id).maxSupply) →
         NFTMultiEdition.mintEdition st caller toAddr id amount =
           .ok { st with
                   tokenTypes := setF st.tokenTypes id
                     { st.tokenTypes id with
                         mintedSupply := (st.tokenTypes id).mintedSupply + amount }
                   balances := setF2 st.balances toAddr id
                     (st.balances toAddr id + amount) }))) ∧
    (∀ (st : NFTMultiEdition.State) (op : NFTMultiEdition.Op) (id : Nat),
      NFTMultiEdition.Alloc st →
      (st.tokenTypes id).mintedSupply ≤
        ((NFTMultiEdition.Op.apply st op).tokenTypes id).mintedSupply) := by
  constructor
  · intro st caller toAddr id amount hm
    refine ⟨?_, ?_, ?_, ?_⟩
    · intro h0
      simp [NFTMultiEdition.mintEdition, hm, h0]
    · intro hpos hc
      have h0 : ¬ amount = 0 := by omega
      simp [NFTMultiEdition.mintEdition, hm, h0, hc]
    · intro hpos hc hbounded hover
      have h0 : ¬ amount = 0 := by omega
      have hsup : 0 < (st.tokenTypes id).maxSupply ∧
          (st.tokenTypes id).maxSupply < (st.tokenTypes id).mintedSupply + amount :=
        ⟨hbounded, hover⟩
      simp [NFTMultiEdition.mintEdition, hm, h0, hc, hsup]
    · intro hpos hc hto hbound
      have h0 : ¬ amount = 0 := by omega
      have hsup : ¬ (0 < (st.tokenTypes id).maxSupply ∧
          (st.tokenTypes id).maxSupply < (st.tokenTypes id).mintedSupply + amount) := by
        rintro ⟨a, b⟩
        have := hbound a
        omega
      simp [NFTMultiEdition.mintEdition, hm, h0, hc, hsup, hto]
  · intro st op id hAlloc
    cases op with
    | opCreateEdition caller creator uri maxSupply =>
      cases hres : NFTMultiEdition.createEdition st caller creator uri maxSupply with
      | error e =>
        simp only [NFTMultiEdition.Op.apply, hres]
        exact Nat.le_refl _
      | ok p =>
        obtain ⟨st2, tid⟩ := p
        obtain ⟨-, -, -, -, hst'⟩ := NFTMultiEdition.createEdition_ok_shape hres
        simp only [NFTMultiEdition.Op.apply, hres]
        have ht : st2.tokenTypes =
            setF st.tokenTypes st.nextTokenTypeId ⟨creator, uri, maxSupply, 0⟩ := by
          rw [hst']
        rw [ht]
        by_cases hc : id = st.nextTokenTypeId
        · subst hc
          rw [setF_same, hAlloc st.nextTokenTypeId (le_refl _)]
          exact Nat.le_refl 0
        · rw [setF_other _ _ _ _ hc]
    | opMintEdition caller toAddr tid amount =>
      cases hres : NFTMultiEdition.mintEdition st caller toAddr tid amount with
      | error e =>
        simp only [NFTMultiEdition.Op.apply, hres]
        exact Nat.le_refl _
      | ok st2 =>
        obtain ⟨-, -, -, -, -, hst'⟩ := NFTMultiEdition.mintEdition_ok_shape hres
        simp only [NFTMultiEdition.Op.apply, hres]
        have ht : st2.tokenTypes = setF st.tokenTypes tid
            { st.tokenTypes tid with
                mintedSupply := (st.tokenTypes tid).mintedSupply + amount } := by
          rw [hst']
        rw [ht]
        by_cases hc : id = tid
        · subst hc
          rw [setF_same]
          exact Nat.le_add_right _ _
        · rw [setF_other _ _ _ _ hc]
    | opCreateAndMint caller toAddr creator uri maxSupply amount =>
      cases hres : NFTMultiEdition.createAndMint st caller toAddr creator uri maxSupply amount with
      | error e =>
        simp only [NFTMultiEdition.Op.apply, hres]
        exact Nat.le_refl _
      | ok p =>
        obtain ⟨st2, tid⟩ := p
        obtain ⟨-, -, -, -, -, -, hst'⟩ := NFTMultiEdition.createAndMint_ok_shape hres
        simp only [NFTMultiEdition.Op.apply, hres]
        have ht : st2.tokenTypes =
            setF st.tokenTypes st.nextTokenTypeId ⟨creator, uri, maxSupply, amount⟩ := by
          rw [hst']
        rw [ht]
        by_cases hc : id = st.nextTokenTypeId
        · subst hc
          rw [setF_same, hAlloc st.nextTokenTypeId (le_refl _)]
          exact Nat.zero_le _
        · rw [setF_other _ _ _ _ hc]
    | opSetTokenRoyalty caller tid receiver bps =>
      cases hres : NFTMultiEdition.setTokenRoyalty st caller tid receiver bps with
      | error e =>
        simp only [NFTMultiEdition.Op.apply, hres]
        exact Nat.le_refl _
      | ok st2 =>
        obtain ⟨-, -, -, -, hst'⟩ := NFTMultiEdition.setTokenRoyaltyME_ok_shape hres
        simp only [NFTMultiEdition.Op.apply, hres]
        have ht : st2.tokenTypes = st.tokenTypes := by rw [hst']
        rw [ht]
    | opBurn caller account tid amount =>
      cases hres : NFTMultiEdition.burn st caller account tid amount with
      | error e =>
        simp only [NFTMultiEdition.Op.apply, hres]
        exact Nat.le_refl _
      | ok st2 =>
        obtain ⟨-, -, hst'⟩ := NFTMultiEdition.burnME_ok_shape hres
        simp only [NFTMultiEdition.Op.apply, hres]
        have ht : st2.tokenTypes = st.tokenTypes := by rw [hst']
        rw [ht]

/-- A multi-edition ledger with one type (id 0): creator `3`,
uri "ipfs://e", maxSupply 10, mintedSupply 5; minter/admin `1`. -/
def meSample : NFTMultiEdition.State where
  minters := fun a => a == 1
  admins := fun a => a == 1
  nextTokenTypeId := 1
  tokenTypes := setF (fun _ => NFTMultiEdition.emptyTokenType) 0 ⟨3, "ipfs://e", 10, 5⟩
  balances := fun _ _ => 0
  defaultRoyaltyBps := 500
  tokenRoyalty := setF (fun _ => (0, 0)) 0 (3, 500)
  defaultRoyaltyInfo := (0, 0)
  approvedForAll := fun _ _ => false

/-- Allocation invariant of `meSample`. -/
theorem meSample_alloc : NFTMultiEdition.Alloc meSample := by
  intro i hi
  have h1 : 1 ≤ i := hi
  exact setF_other (fun _ => NFTMultiEdition.emptyTokenType) 0 i
    ⟨3, "ipfs://e", 10, 5⟩ (by omega)

/-- Witness for C5 on `meSample` (minted 5 of max 10): amount 0, an unknown
type, and amount 6 fail with the three respective errors; amount 5 — exactly
up to `maxSupply` — succeeds and adds 5 to supply and balance; a mint
operation never shrinks `mintedSupply`. -/
theorem claim5_mintEdition_supply_witness :
    NFTMultiEdition.mintEdition meSample 1 2 0 0 = .error .invalidAmount ∧
    NFTMultiEdition.mintEdition meSample 1 2 9 5 = .error .notFound ∧
    NFTMultiEdition.mintEdition meSample 1 2 0 6 = .error .supplyExceeded ∧
    NFTMultiEdition.mintEdition meSample 1 2 0 5 =
      .ok { meSample with
              tokenTypes := setF meSample.tokenTypes 0
                { meSample.tokenTypes 0 with
                    mintedSupply := (meSample.tokenTypes 0).mintedSupply + 5 }
              balances := setF2 meSample.balances 2 0 (meSample.balances 2 0 + 5) } ∧
    (meSample.tokenTypes 0).mintedSupply ≤
      ((NFTMultiEdition.Op.apply meSample (.opMintEdition 1 2 0 5)).tokenTypes 0).mintedSupply := by
  refine ⟨?_, ?_, ?_, ?_, ?_⟩
  · exact (claim5_mintEdition_supply.1 meSample 1 2 0 0 rfl).1 rfl
  · exact (claim5_mintEdition_supply.1 meSample 1 2 9 5 rfl).2.1 (by decide) (by decide)
  · exact (claim5_mintEdition_supply.1 meSample 1 2 0 6 rfl).2.2.1
      (by decide) (by decide) (by decide) (by decide)
  · exact (claim5_mintEdition_supply.1 meSample 1 2 0 5 rfl).2.2.2
      (by decide) (by decide) (by decide) (by decide)
  · exact claim5_mintEdition_supply.2 meSample (.opMintEdition 1 2 0 5) 0 meSample_alloc

/-! ## C7 — royalty rate authorization and bound -/

/-- C7: on an existing token (respectively edition type), `setTokenRoyalty`
fails `Unauthorized` when the caller is neither the item's creator nor an
admin, fails `InvalidRate` for an authorized caller whenever the rate exceeds
1000 bps (each failure reverting, hence leaving the stored royalty
unchanged), and every successful call stores exactly the requested receiver
and a rate within `[0, 1000]`. -/
theorem claim7_royalty_bound :
    (∀ (st : NFT.State) (caller id receiver bps : Nat),
      st.owners id ≠ 0 →
      ((¬ (st.creators id = caller ∨ st.admins caller) →
         NFT.setTokenRoyalty st caller id receiver bps = .error .unauthorized) ∧
       ((st.creators id = caller ∨ st.admins caller) → 1000 < bps →
         NFT.setTokenRoyalty st caller id receiver bps = .error .invalidRate) ∧
       (∀ st', NFT.setTokenRoyalty st caller id receiver bps = .ok st' →
         (st'.tokenRoyalty id).1 = receiver ∧ (st'.tokenRoyalty id).2 = bps ∧
         bps ≤ 1000))) ∧
    (∀ (st : NFTMultiEdition.State) (caller id receiver bps : Nat),
      (st.tokenTypes id).creator ≠ 0 →
      ((¬ ((st.tokenTypes id).creator = caller ∨ st.admins caller) →
         NFTMultiEdition.setTokenRoyalty st caller id receiver bps = .error .unauthorized) ∧
       (((st.tokenTypes id).creator = caller ∨ st.admins caller) → 1000 < bps →
         NFTMultiEdition.setTokenRoyalty st caller id receiver bps = .error .invalidRate) ∧
       (∀ st', NFTMultiEdition.setTokenRoyalty st caller id receiver bps = .ok st' →
         (st'.tokenRoyalty id).1 = receiver ∧ (st'.tokenRoyalty id).2 = bps ∧
         bps ≤ 1000))) := by
  constructor
  · intro st caller id receiver bps hex
    refine ⟨?_, ?_, ?_⟩
    · intro hna
      simp [NFT.setTokenRoyalty, hex, hna]
    · intro hauth hbps
      simp [NFT.setTokenRoyalty, hex, hauth, hbps]
    · intro st' h
      obtain ⟨-, -, hle, -, hst'⟩ := NFT.setTokenRoyalty_ok_shape h
      have ht : st'.tokenRoyalty = setF st.tokenRoyalty id (receiver, bps) := by rw [hst']
      rw [ht, setF_same]
      exact ⟨rfl, rfl, hle⟩
  · intro st caller id receiver bps hex
    refine ⟨?_, ?_, ?_⟩
    · intro hna
      simp [NFTMultiEdition.setTokenRoyalty, hex, hna]
    · intro hauth hbps
      simp [NFTMultiEdition.setTokenRoyalty, hex, hauth, hbps]
    · intro st' h
      obtain ⟨-, -, hle, -, hst'⟩ := NFTMultiEdition.setTokenRoyaltyME_ok_shape h
      have ht : st'.tokenRoyalty = setF st.tokenRoyalty id (receiver, bps) := by rw [hst']
      rw [ht, setF_same]
      exact ⟨rfl, rfl, hle⟩

/-- A single-edition ledger with token 0: owner `2`, creator `3`,
royalty (3, 500); minter/admin `1`. -/
def nftSample : NFT.State where
  minters := fun a => a == 1
  admins := fun a => a == 1
  nextTokenId := 1
  owners := setF (fun _ => 0) 0 2
  tokenURIs := setF (fun _ => "") 0 "ipfs://t"
  creators := setF (fun _ => 0) 0 3
  defaultRoyaltyBps := 500
  tokenRoyalty := setF (fun _ => (0, 0)) 0 (3, 500)
  defaultRoyaltyInfo := (0, 0)
  approvedForAll := fun _ _ => false
  tokenApprovals := fun _ => 0

/-- The single-edition ledger after creator `3` re-points token 0's royalty
to receiver `6` at 800 bps. -/
def c7NftAfter : NFT.State :=
  match NFT.setTokenRoyalty nftSample 3 0 6 800 with
  | .ok s => s
  | .error _ => nftSample

/-- The multi-edition ledger after creator `3` re-points type 0's royalty to
receiver `6` at 800 bps. -/
def c7MeAfter : NFTMultiEdition.State :=
  match NFTMultiEdition.setTokenRoyalty meSample 3 0 6 800 with
  | .ok s => s
  | .error _ => meSample

/-- Witness for C7 on both ledgers: the stranger `9` is rejected, the creator
`3` is rejected at 1001 bps, and the creator's successful 800 bps update
stores (6, 800) with the rate within bound. -/
theorem claim7_royalty_bound_witness :
    NFT.setTokenRoyalty nftSample 9 0 9 300 = .error .unauthorized ∧
    NFT.setTokenRoyalty nftSample 3 0 3 1001 = .error .invalidRate ∧
    ((c7NftAfter.tokenRoyalty 0).1 = 6 ∧ (c7NftAfter.tokenRoyalty 0).2 = 800 ∧
      (800 : Nat) ≤ 1000) ∧
    NFTMultiEdition.setTokenRoyalty meSample 9 0 9 300 = .error .unauthorized ∧
    NFTMultiEdition.setTokenRoyalty meSample 3 0 3 1001 = .error .invalidRate ∧
    ((c7MeAfter.tokenRoyalty 0).1 = 6 ∧ (c7MeAfter.tokenRoyalty 0).2 = 800 ∧
      (800 : Nat) ≤ 1000) := by
  refine ⟨?_, ?_, ?_, ?_, ?_, ?_⟩
  · exact (claim7_royalty_bound.1 nftSample 9 0 9 300 (by decide)).1 (by decide)
  · exact (claim7_royalty_bound.1 nftSample 3 0 3 1001 (by decide)).2.1
      (by decide) (by decide)
  · exact (claim7_royalty_bound.1 nftSample 3 0 6 800 (by decide)).2.2 c7NftAfter rfl
  · exact (claim7_royalty_bound.2 meSample 9 0 9 300 (by decide)).1 (by decide)
  · exact (claim7_royalty_bound.2 meSample 3 0 3 1001 (by decide)).2.1
      (by decide) (by decide)
  · exact (claim7_royalty_bound.2 meSample 3 0 6 800 (by decide)).2.2 c7MeAfter rfl

/-! ## C10 — totalSupply as a high-water mark of minted ids -/

/-- One operation changes `totalSupply` by exactly the number (0 or 1) of
successful mints it performs. -/
theorem totalSupply_apply (st : NFT.State) (op : NFT.Op) :
    NFT.totalSupply (NFT.Op.apply st op) =
      NFT.totalSupply st + NFT.mintDelta st op := by
  cases op with
  | opMint caller toAddr uri =>
    cases hres : NFT.mint st caller toAddr uri with
    | error e => simp [NFT.Op.apply, NFT.mintDelta, hres]
    | ok p =>
      obtain ⟨st2, tid⟩ := p
      obtain ⟨-, -, -, hst'⟩ := NFT.mint_ok_shape hres
      simp only [NFT.Op.apply, NFT.mintDelta, hres]
      rw [hst']
      rfl
  | opMintFor caller toAddr creator uri =>
    cases hres : NFT.mintFor st caller toAddr creator uri with
    | error e => simp [NFT.Op.apply, NFT.mintDelta, hres]
    | ok p =>
      obtain ⟨st2, tid⟩ := p
      obtain ⟨-, -, -, -, hst'⟩ := NFT.mintFor_ok_shape hres
      simp only [NFT.Op.apply, NFT.mintDelta, hres]
      rw [hst']
      rfl
  | opBurn caller tokenId =>
    cases hres : NFT.burn st caller tokenId with
    | error e => simp [NFT.Op.apply, NFT.mintDelta, hres]
    | ok st2 =>
      obtain ⟨-, hst'⟩ := NFT.burn_ok_shape hres
      simp only [NFT.Op.apply, NFT.mintDelta, hres]
      rw [hst']
      rfl
  | opSetTokenRoyalty caller tokenId receiver bps =>
    cases hres : NFT.setTokenRoyalty st caller tokenId receiver bps with
    | error e => simp [NFT.Op.apply, NFT.mintDelta, hres]
    | ok st2 =>
      obtain ⟨-, -, -, -, hst'⟩ := NFT.setTokenRoyalty_ok_shape hres
      simp only [NFT.Op.apply, NFT.mintDelta, hres]
      rw [hst']
      rfl
  | opSetDefaultRoyalty caller bps =>
    cases hres : NFT.setDefaultRoyalty st caller bps with
    | error e => simp [NFT.Op.apply, NFT.mintDelta, hres]
    | ok st2 =>
      obtain ⟨-, -, hst'⟩ := NFT.setDefaultRoyalty_ok_shape hres
      simp only [NFT.Op.apply, NFT.mintDelta, hres]
      rw [hst']
      rfl

/-- C10: `totalSupply()` (= `_nextTokenId`) equals its initial value plus the
number of successful mint operations along any trace — the next unassigned
token id — and never decreases under any operation; a successful `burn`
leaves `totalSupply()` unchanged even though `exists(id)` turns false for the
burned id, so `totalSupply()` is a high-water mark of issued identifiers,
not a count of live tokens. -/
theorem claim10_totalSupply_highwater :
    (∀ (st : NFT.State) (ops : List NFT.Op),
      NFT.totalSupply (List.foldl NFT.Op.apply st ops) =
        NFT.totalSupply st + NFT.traceMintCount st ops) ∧
    (∀ (st : NFT.State) (op : NFT.Op),
      NFT.totalSupply st ≤ NFT.totalSupply (NFT.Op.apply st op)) ∧
    (∀ (st : NFT.State) (caller tokenId : Nat) (st' : NFT.State),
      NFT.burn st caller tokenId = .ok st' →
      NFT.totalSupply st' = NFT.totalSupply st ∧
      NFT.existsToken st' tokenId = false) := by
  refine ⟨?_, ?_, ?_⟩
  · intro st ops
    induction ops generalizing st with
    | nil => simp [NFT.traceMintCount]
    | cons op rest ih =>
      simp only [List.foldl_cons, NFT.traceMintCount]
      rw [ih (NFT.Op.apply st op), totalSupply_apply]
      omega
  · intro st op
    rw [totalSupply_apply]
    exact Nat.le_add_right _ _
  · intro st caller tokenId st' h
    obtain ⟨-, hst'⟩ := NFT.burn_ok_shape h
    constructor
    · rw [hst']
      rfl
    · rw [hst']
      simp [NFT.existsToken]

/-- A freshly deployed single-edition ledger: minter/admin `1`, empty
storage, default royalty 500 bps. -/
def nftEmpty : NFT.State where
  minters := fun a => a == 1
  admins := fun a => a == 1
  nextTokenId := 0
  owners := fun _ => 0
  tokenURIs := fun _ => ""
  creators := fun _ => 0
  defaultRoyaltyBps := 500
  tokenRoyalty := fun _ => (0, 0)
  defaultRoyaltyInfo := (0, 0)
  approvedForAll := fun _ _ => false
  tokenApprovals := fun _ => 0

/-- The ledger after minter `1` mints token 0 to `2`. -/
def c10Minted : NFT.State :=
  match NFT.mint nftEmpty 1 2 "ipfs://u1" with
  | .ok (s, _) => s
  | .error _ => nftEmpty

/-- The ledger after owner `2` burns token 0. -/
def c10AfterBurn : NFT.State :=
  match NFT.burn c10Minted 2 0 with
  | .ok s => s
  | .error _ => c10Minted

/-- Witness for C10: two mints then a burn leave `totalSupply` at 2 (the
number of mints performed), the burn preserves `totalSupply` while
`exists(0)` turns false. -/
theorem claim10_totalSupply_highwater_witness :
    NFT.totalSupply (List.foldl NFT.Op.apply nftEmpty
        [.opMint 1 2 "ipfs://u1", .opMint 1 3 "ipfs://u2", .opBurn 2 0]) =
      NFT.totalSupply nftEmpty + NFT.traceMintCount nftEmpty
        [.opMint 1 2 "ipfs://u1", .opMint 1 3 "ipfs://u2", .opBurn 2 0] ∧
    NFT.totalSupply c10Minted ≤
      NFT.totalSupply (NFT.Op.apply c10Minted (.opBurn 2 0)) ∧
    (NFT.totalSupply c10AfterBurn = NFT.totalSupply c10Minted ∧
      NFT.existsToken c10AfterBurn 0 = false) :=
  ⟨claim10_totalSupply_highwater.1 nftEmpty _,
   claim10_totalSupply_highwater.2.1 c10Minted _,
   claim10_totalSupply_highwater.2.2 c10Minted 2 0 c10AfterBurn rfl⟩

/-! ## C4 — createAndMint versus createEdition ∘ mintEdition -/

/-- The composition the spec describes for `createAndMint`: `createEdition`
followed by `mintEdition` on the freshly created type id (atomic: the first
failure aborts the whole thing). -/
def composedCreateMint (st : NFTMultiEdition.State) (caller toAddr creator : Addr)
    (tokenUri : String) (maxSupply amount : Nat) :
    Except SolError (NFTMultiEdition.State × Nat) :=
  match NFTMultiEdition.createEdition st caller creator tokenUri maxSupply with
  | .error e => .error e
  | .ok (st1, tid) =>
    match NFTMultiEdition.mintEdition st1 caller toAddr tid amount with
    | .error e => .error e
    | .ok st2 => .ok (st2, tid)

/-- Counterexample to C4 as stated: `createAndMint` does not validate the
URI — with an empty URI it succeeds outright, while the claimed composition
(`createEdition` first) fails with `InvalidURI`. -/
theorem claim4_counterexample :
    exceptIsOk (NFTMultiEdition.createAndMint meSample 1 2 3 "" 10 5) = true ∧
    NFTMultiEdition.createEdition meSample 1 3 "" 10 = .error .invalidURI ∧
    composedCreateMint meSample 1 2 3 "" 10 5 = .error .invalidURI :=
  ⟨rfl, rfl, rfl⟩

/-- C4 as amended: whenever `creator` is non-null and `tokenUri` nonempty
(and the deployed default royalty fraction is sane, i.e. ≤ 10000 bps),
`createAndMint` is extensionally equal to `createEdition` followed by
`mintEdition` — same errors, same resulting type record, balance and royalty
entry, same returned type id; it fails `InvalidAmount` on `amount = 0` and
`SupplyExceeded` when bounded and `amount > maxSupply`.  Unlike the claim,
`createAndMint` performs no null-creator or empty-URI validation of its own:
with an empty URI it simply succeeds (see the counterexample), and with a
null creator it fails in the royalty-receiver check rather than with
`InvalidCreator`. -/
theorem claim4_createAndMint_composition
    (st : NFTMultiEdition.State) (caller toAddr creator : Addr)
    (tokenUri : String) (maxSupply amount : Nat) :
    (creator ≠ 0 → tokenUri.length ≠ 0 → st.defaultRoyaltyBps ≤ 10000 →
      NFTMultiEdition.createAndMint st caller toAddr creator tokenUri maxSupply amount =
        composedCreateMint st caller toAddr creator tokenUri maxSupply amount) ∧
    (st.minters caller = true → amount = 0 →
      NFTMultiEdition.createAndMint st caller toAddr creator tokenUri maxSupply amount =
        .error .invalidAmount) ∧
    (st.minters caller = true → 0 < amount → 0 < maxSupply → maxSupply < amount →
      NFTMultiEdition.createAndMint st caller toAddr creator tokenUri maxSupply amount =
        .error .supplyExceeded) := by
  refine ⟨?_, ?_, ?_⟩
  · intro hc hu hbps
    have hb : ¬ 10000 < st.defaultRoyaltyBps := by omega
    by_cases hm : st.minters caller
    · by_cases h0 : amount = 0
      · simp [NFTMultiEdition.createAndMint, composedCreateMint,
          NFTMultiEdition.createEdition, NFTMultiEdition.mintEdition,
          erc2981SetChecks, hm, h0, hc, hu, hb]
      · by_cases hs : maxSupply = 0 ∨ amount ≤ maxSupply
        · have hms : ¬ (0 < maxSupply ∧ maxSupply < amount) := by omega
          by_cases ht : toAddr = 0
          · simp [NFTMultiEdition.createAndMint, composedCreateMint,
              NFTMultiEdition.createEdition, NFTMultiEdition.mintEdition,
              erc2981SetChecks, hm, h0, hc, hu, hb, hs, hms, ht]
          · simp [NFTMultiEdition.createAndMint, composedCreateMint,
              NFTMultiEdition.createEdition, NFTMultiEdition.mintEdition,
              erc2981SetChecks, hm, h0, hc, hu, hb, hs, hms, ht]
        · have hns : ¬ (maxSupply = 0 ∨ amount ≤ maxSupply) := hs
          have hpos : 0 < maxSupply := by omega
          have hma : maxSupply < amount := by omega
          simp [NFTMultiEdition.createAndMint, composedCreateMint,
            NFTMultiEdition.createEdition, NFTMultiEdition.mintEdition,
            erc2981SetChecks, hm, h0, hc, hu, hb, hns, hpos, hma]
    · simp [NFTMultiEdition.createAndMint, composedCreateMint,
        NFTMultiEdition.createEdition, hm]
  · intro hm h0
    simp [NFTMultiEdition.createAndMint, hm, h0]
  · intro hm h0 hbound hover
    have h0' : ¬ amount = 0 := by omega
    have hns : ¬ (maxSupply = 0 ∨ amount ≤ maxSupply) := by omega
    simp [NFTMultiEdition.createAndMint, hm, h0', hns]

/-- Witness for C4 (amended): on `meSample` with a valid creator and URI,
`createAndMint` agrees with the composition, and its two own validations
fire. -/
theorem claim4_createAndMint_composition_witness :
    NFTMultiEdition.createAndMint meSample 1 2 3 "ipfs://q" 10 5 =
      composedCreateMint meSample 1 2 3 "ipfs://q" 10 5 ∧
    NFTMultiEdition.createAndMint meSample 1 2 3 "ipfs://q" 10 0 =
      .error .invalidAmount ∧
    NFTMultiEdition.createAndMint meSample 1 2 3 "ipfs://q" 5 10 =
      .error .supplyExceeded :=
  ⟨(claim4_createAndMint_composition meSample 1 2 3 "ipfs://q" 10 5).1
      (by decide) (by decide) (by decide),
   (claim4_createAndMint_composition meSample 1 2 3 "ipfs://q" 10 0).2.1
      rfl rfl,
   (claim4_createAndMint_composition meSample 1 2 3 "ipfs://q" 5 10).2.2
      rfl (by decide) (by decide) (by decide)⟩

/-! ## C8 — end-to-end scenario B: mint-for-other, list, buy -/

/-- The `TokenEnv` the marketplace (deployed at address `marketAddr`) observes
when the traded contract is an `NFT` ledger in state `st`: views answer from
storage, `royaltyInfo` is the ledger's ERC2981 answer, and `safeTransferFrom`
succeeds iff the alleged owner is correct, the recipient non-null, and the
marketplace holds blanket or per-token approval. -/
def nftEnv (st : NFT.State) (marketAddr : Addr) : Marketplace.TokenEnv where
  ownerOf := st.owners
  getApproved := st.tokenApprovals
  isApprovedForAll := st.approvedForAll
  balanceOf := fun _ _ => 0
  supportsRoyalty := true
  royaltyInfo := fun id price => NFT.royaltyInfo st id price
  transferOk := fun fromAddr toAddr id _ =>
    (st.owners id == fromAddr) && (toAddr != 0) &&
      (st.approvedForAll fromAddr marketAddr || st.tokenApprovals id == marketAddr)
  ethAccepts := fun _ => true

/-- Step 1 of scenario B: the admin (`1`) mints token 0 to owner X = `2` with
creator Z = `3` (the mint-for-other path); default royalty is 500 bps. -/
def c8Nft1 : NFT.State :=
  match NFT.mintFor nftEmpty 1 2 3 "ipfs://art" with
  | .ok (s, _) => s
  | .error _ => nftEmpty

/-- Step 2: X grants the marketplace (address `5`) blanket approval. -/
def c8Nft2 : NFT.State :=
  { c8Nft1 with
      approvedForAll := fun a b => (a == 2 && b == 5) || c8Nft1.approvedForAll a b }

/-- The marketplace's view of the ledger after steps 1–2. -/
def c8Env : Marketplace.TokenEnv := nftEnv c8Nft2 5

/-- Step 3: X lists token 0 at price `1 ether` (in wei). -/
def c8Market1 : Marketplace.State :=
  match Marketplace.listERC721 mkMarketState c8Env 2 10 0 1000000000000000000 0 with
  | .ok (s, _) => s
  | .error _ => mkMarketState

/-- Step 4: buyer Y = `6` pays exactly `1 ether` for listing 0. -/
def c8BuyRun : Except SolError (Marketplace.State × Marketplace.SaleInfo) :=
  Marketplace.buy c8Market1 c8Env 6 1000000000000000000 0

/-- The marketplace state after the purchase. -/
def c8Market2 : Marketplace.State :=
  match c8BuyRun with
  | .ok (s, _) => s
  | .error _ => c8Market1

/-- C8: in the mint-for-other scenario (creator Z = `3` distinct from
owner/seller X = `2`, default royalty 500 bps, platform fee 250 bps, price
`1 ether`), the buy succeeds and pays creator Z exactly 5% =
`50_000_000_000_000_000` wei, the fee recipient 2.5% =
`25_000_000_000_000_000` wei, and seller X the remaining 92.5% =
`925_000_000_000_000_000` wei; the listing ends `Sold`. -/
theorem claim8_mint_for_other_payout :
    exceptIsOk c8BuyRun = true ∧
    c8Market2.ethBalances 3 = 50000000000000000 ∧
    c8Market2.ethBalances 4 = 25000000000000000 ∧
    c8Market2.ethBalances 2 = 925000000000000000 ∧
    (c8Market2.listings 0).status = .sold :=
  ⟨rfl, rfl, rfl, rfl, rfl⟩

end NFTPlatform
